import Mathlib

/-!
Verification development for the ethos-scanner graph explorer.

The definitions below are a shallow embedding of the graph-assembly code of
the three network visualizations:

* `src/unnamed/part_000` — the invitation map component (first copy in the
  file; a second, older copy follows the document separator and is not the
  one the specification describes),
* `src/components/vouches-map.tsx` — the vouch network component,
* `src/components/reviews-map.tsx` — the review network component.

JavaScript `Map` objects are modelled as insertion-ordered association
lists, JavaScript `Set` objects as duplicate-free lists, and JavaScript
truthiness of numbers (`0` is falsy) is made explicit in the `jsOr...`
helpers.  Profile identifiers are natural numbers; node keys are their
decimal string forms, exactly as the code keys its maps by
`profileId.toString()`.  The components run their graph-building passes
only after a successful fetch, which is guarded by `if (!profileId)`, so
the embedding takes the root profile id as a plain `Nat`.
-/

namespace EthosScanner

/-! ## JavaScript Map / Set / truthiness helpers -/

/-- Lookup in an insertion-ordered association list (JavaScript `Map.get`). -/
def mapGet {α : Type} : List (String × α) → String → Option α
  | [], _ => none
  | (k, v) :: rest, key => if k = key then some v else mapGet rest key

/-- Insert-or-update in an insertion-ordered association list
(JavaScript `Map.set`): an existing key is updated in place, a new key is
appended at the end. -/
def mapSet {α : Type} : List (String × α) → String → α → List (String × α)
  | [], key, v => [(key, v)]
  | (k, w) :: rest, key, v =>
      if k = key then (k, v) :: rest else (k, w) :: mapSet rest key v

/-- JavaScript `Set.add` on a duplicate-free list of strings. -/
def setAdd (s : List String) (x : String) : List String :=
  if x ∈ s then s else s ++ [x]

/-- JavaScript `a || b` where `a` is an optional number: both absence and
`0` are falsy and select the fallback. -/
def jsOrNat : Option Nat → Nat → Nat
  | none, d => d
  | some v, d => if v = 0 then d else v

/-- JavaScript `a || b` for optional integers (`0` is falsy, negative
numbers are truthy). -/
def jsOrInt : Option Int → Int → Int
  | none, d => d
  | some v, d => if v = 0 then d else v

/-- JavaScript `a || b` for strings: the empty string is falsy. -/
def jsOrStr (s d : String) : String :=
  if s = "" then d else s

/-! ## Shared data model

The `User` shape is the remote identity payload used by all three
components (`Invitee` in the invitation map, `User` in the vouch and
review maps). -/

structure User where
  id : Nat
  profileId : Option Nat
  displayName : String
  username : Option String
  avatarUrl : String
  score : Nat
deriving Repr, DecidableEq

/-! ## Vouch graph (`src/components/vouches-map.tsx`) -/

/-- A vouch relationship record, already tagged with the ring level the
fetcher assigned to it (`VouchWithLevel` in the source).  The source keeps
the wei balance as a decimal string and tests `parseFloat(balance) > 0`;
for a string of decimal digits that test holds exactly when the denoted
number is positive, so the balance is modelled as the denoted number. -/
structure Vouch where
  authorProfileId : Nat
  subjectProfileId : Nat
  authorUser : User
  subjectUser : User
  balance : Option Nat
  level : Nat
deriving Repr, DecidableEq

/-- `isVouchFunded` of vouches-map.tsx: a vouch counts only with a positive
balance. -/
def isVouchFunded (v : Vouch) : Bool :=
  match v.balance with
  | none => false
  | some b => 0 < b

inductive VouchType where
  | given
  | received
  | both
  | root
deriving Repr, DecidableEq

/-- The `Node` shape of vouches-map.tsx (simulation position fields are
owned by the layout engine and carry no graph information). -/
structure VNode where
  id : String
  profileId : Option Nat
  name : String
  username : Option String
  avatarUrl : String
  score : Nat
  isRoot : Bool
  vouchType : VouchType
  level : Nat
deriving Repr, DecidableEq

/-- Does the record mention key `k` on the subject side?  Mirrors the
`if (vouch.subjectProfileId)` guard (0 is falsy). -/
def vouchSubjHit (v : Vouch) (k : String) : Bool :=
  v.subjectProfileId != 0 && toString v.subjectProfileId == k

/-- Does the record mention key `k` on the author side?  Mirrors the
`if (vouch.authorProfileId && vouch.authorProfileId !== profileId)`
guard. -/
def vouchAuthHit (rootPid : Nat) (v : Vouch) (k : String) : Bool :=
  v.authorProfileId != 0 && v.authorProfileId != rootPid
    && toString v.authorProfileId == k

/-- How many processed occurrences of key `k` a single record yields (the
subject side and the non-root author side are each processed once). -/
def vouchOccOf (rootPid : Nat) (v : Vouch) (k : String) : Nat :=
  (if vouchSubjHit v k then 1 else 0) + (if vouchAuthHit rootPid v k then 1 else 0)

/-- A record references the identity keyed `k` if either side mentions it. -/
def vouchRefs (rootPid : Nat) (v : Vouch) (k : String) : Bool :=
  vouchSubjHit v k || vouchAuthHit rootPid v k

/-- Total number of processed occurrences of key `k` in a record list. -/
def vouchOccCount (rootPid : Nat) (vs : List Vouch) (k : String) : Nat :=
  (vs.map (fun v => vouchOccOf rootPid v k)).sum

/-- One step of the `userMinLevels` first pass (vouches-map.tsx lines
582-598): track the minimum tagged level for the subject, and for the
author when the author is not the root. -/
def trackMin (m : List (String × Nat)) (k : String) (lvl : Nat) : List (String × Nat) :=
  match mapGet m k with
  | none => mapSet m k lvl
  | some cur => if lvl < cur then mapSet m k lvl else m

def vouchMinStep (rootPid : Nat) (m : List (String × Nat)) (v : Vouch) :
    List (String × Nat) :=
  let m1 := if v.subjectProfileId ≠ 0 then trackMin m (toString v.subjectProfileId) v.level else m
  if v.authorProfileId ≠ 0 ∧ v.authorProfileId ≠ rootPid then
    trackMin m1 (toString v.authorProfileId) v.level
  else m1

/-- The full `userMinLevels` map of vouches-map.tsx. -/
def vouchUserMinLevels (rootPid : Nat) (vs : List Vouch) : List (String × Nat) :=
  vs.foldl (vouchMinStep rootPid) []

/-- The classifier assigned when an identity is created from a record on
which it occurs exactly once. -/
def vouchSingleType (rootPid : Nat) (v : Vouch) (k : String) : VouchType :=
  if vouchSubjHit v k then
    (if v.authorProfileId == rootPid then .received else .given)
  else
    (if v.subjectProfileId == rootPid then .given else .received)

/-- The level-lowering update applied to an existing node:
`if (minLevel < node.level) node.level = minLevel`. -/
def lowerLevelV (n : VNode) (lvl : Nat) : VNode :=
  if lvl < n.level then { n with level := lvl } else n

/-- The classifier update applied to an existing node:
`if (node.vouchType !== "both") node.vouchType = "both"`. -/
def flipBothV (n : VNode) : VNode :=
  if n.vouchType ≠ .both then { n with vouchType := .both } else n

/-- Subject-side node creation / update of the second pass (vouches-map.tsx
lines 603-629). -/
def vouchSubjectNode (rootPid : Nat) (minL : String → Option Nat) (v : Vouch) :
    Option VNode → VNode
  | none =>
      { id := toString v.subjectProfileId
        profileId := some v.subjectProfileId
        name := v.subjectUser.displayName
        username := v.subjectUser.username
        avatarUrl := v.subjectUser.avatarUrl
        score := v.subjectUser.score
        isRoot := false
        vouchType := if v.authorProfileId == rootPid then .received else .given
        level := jsOrNat (minL (toString v.subjectProfileId)) v.level }
  | some node =>
      flipBothV (lowerLevelV node (jsOrNat (minL (toString v.subjectProfileId)) node.level))

/-- Author-side node creation / update of the second pass (vouches-map.tsx
lines 632-658). -/
def vouchAuthorNode (rootPid : Nat) (minL : String → Option Nat) (v : Vouch) :
    Option VNode → VNode
  | none =>
      { id := toString v.authorProfileId
        profileId := some v.authorProfileId
        name := v.authorUser.displayName
        username := v.authorUser.username
        avatarUrl := v.authorUser.avatarUrl
        score := v.authorUser.score
        isRoot := false
        vouchType := if v.subjectProfileId == rootPid then .given else .received
        level := jsOrNat (minL (toString v.authorProfileId)) v.level }
  | some node =>
      flipBothV (lowerLevelV node (jsOrNat (minL (toString v.authorProfileId)) node.level))

def vouchSubjectStep (rootPid : Nat) (minL : String → Option Nat)
    (m : List (String × VNode)) (v : Vouch) : List (String × VNode) :=
  if v.subjectProfileId ≠ 0 then
    let subjectId := toString v.subjectProfileId
    mapSet m subjectId (vouchSubjectNode rootPid minL v (mapGet m subjectId))
  else m

def vouchAuthorStep (rootPid : Nat) (minL : String → Option Nat)
    (m : List (String × VNode)) (v : Vouch) : List (String × VNode) :=
  if v.authorProfileId ≠ 0 ∧ v.authorProfileId ≠ rootPid then
    let authorId := toString v.authorProfileId
    mapSet m authorId (vouchAuthorNode rootPid minL v (mapGet m authorId))
  else m

def vouchNodeStep (rootPid : Nat) (minL : String → Option Nat)
    (m : List (String × VNode)) (v : Vouch) : List (String × VNode) :=
  vouchAuthorStep rootPid minL (vouchSubjectStep rootPid minL m v) v

/-- The synthesized root node (vouches-map.tsx lines 562-572). -/
def vouchRootNode (rootPid : Nat) (userName avatarUrl : String) : VNode :=
  { id := toString rootPid
    profileId := some rootPid
    name := userName
    username := none
    avatarUrl := avatarUrl
    score := 0
    isRoot := true
    vouchType := .root
    level := 0 }

/-- The complete `nodeMap` of vouches-map.tsx (lines 574-659): root seeded
first, then the two-pass minimum-level construction over all accumulated
vouches. -/
def vouchNodeMap (rootPid : Nat) (userName avatarUrl : String) (vs : List Vouch) :
    List (String × VNode) :=
  let minL := fun k => mapGet (vouchUserMinLevels rootPid vs) k
  vs.foldl (vouchNodeStep rootPid minL)
    [(toString rootPid, vouchRootNode rootPid userName avatarUrl)]

/-- `Array.from(nodeMap.values())` — the canonical node list. -/
def vouchAllNodes (rootPid : Nat) (userName avatarUrl : String) (vs : List Vouch) :
    List VNode :=
  (vouchNodeMap rootPid userName avatarUrl vs).map Prod.snd

/-! ### Vouch ring-visibility filter (vouches-map.tsx lines 661-761) -/

/-- The per-view ring toggle state: `visibleRings[level]` may be absent. -/
def RingState : Type := Nat → Option Bool

/-- The node predicate of `filteredNodesByRing`. -/
def ringNodeKeep (rings : RingState) (n : VNode) : Bool :=
  if n.isRoot || n.level == 0 then true
  else if n.level == 1 then (rings 1).getD true
  else (rings n.level).getD false

/-- The endpoint-visibility test used for links and needed nodes
(`sourceVisible` / `targetVisible`). -/
def ringLinkVisible (rings : RingState) (n : VNode) : Bool :=
  n.isRoot || n.level == 0 || (n.level == 1 && (rings 1).getD true)
    || (rings n.level).getD false

def MAX_TOTAL_NODES : Nat := 200

/-- `neededNodeIds`: endpoints of every ring-visible link. -/
def vouchNeededNodeIds (rings : RingState) (nm : List (String × VNode)) (vs : List Vouch) :
    List String :=
  vs.foldl (fun s v =>
    let sourceId := toString v.authorProfileId
    let targetId := toString v.subjectProfileId
    match mapGet nm sourceId, mapGet nm targetId with
    | some sn, some tn =>
        if ringLinkVisible rings sn && ringLinkVisible rings tn then
          setAdd (setAdd s sourceId) targetId
        else s
    | _, _ => s) []

/-- `finalNodeIds = new Set([...visibleNodeIds, ...neededNodeIds])` —
only membership in this collection is ever used. -/
def vouchFinalNodeIds (rootPid : Nat) (userName avatarUrl : String) (vs : List Vouch)
    (rings : RingState) : List String :=
  let allNodes := vouchAllNodes rootPid userName avatarUrl vs
  let nm := vouchNodeMap rootPid userName avatarUrl vs
  (allNodes.filter (fun n => ringNodeKeep rings n)).map VNode.id
    ++ vouchNeededNodeIds rings nm vs

/-- The visible node list: canonical nodes restricted to `finalNodeIds`,
truncated to the node budget. -/
def vouchVisibleNodes (rootPid : Nat) (userName avatarUrl : String) (vs : List Vouch)
    (rings : RingState) : List VNode :=
  ((vouchAllNodes rootPid userName avatarUrl vs).filter
    (fun n => (vouchFinalNodeIds rootPid userName avatarUrl vs rings).contains n.id)).take
    MAX_TOTAL_NODES

def vouchVisibleIds (rootPid : Nat) (userName avatarUrl : String) (vs : List Vouch)
    (rings : RingState) : List String :=
  (vouchVisibleNodes rootPid userName avatarUrl vs rings).map VNode.id

/-- `vouchPairs` (vouches-map.tsx lines 710-718): author key → set of
subject keys, over the full accumulated record list. -/
def pairsAdd (m : List (String × List String)) (s t : String) :
    List (String × List String) :=
  match mapGet m s with
  | none => mapSet m s (setAdd [] t)
  | some st => mapSet m s (setAdd st t)

def vouchPairsOf (vs : List Vouch) : List (String × List String) :=
  vs.foldl (fun m v => pairsAdd m (toString v.authorProfileId) (toString v.subjectProfileId)) []

/-- `vouchPairs.get(a)?.has(b) ?? false`. -/
def pairsHas (m : List (String × List String)) (a b : String) : Bool :=
  match mapGet m a with
  | none => false
  | some st => st.contains b

/-- The `Link` shape of vouches-map.tsx.  The wei balance is carried raw;
its division by 1e18 in the source only feeds stroke-width rendering. -/
structure VLink where
  source : String
  target : String
  amountWei : Option Nat
  level : Nat
  isReciprocal : Bool
deriving Repr, DecidableEq

/-- The per-record case of the `links` flatMap (vouches-map.tsx lines
720-761). -/
def vouchLinkOf (rings : RingState) (nm : List (String × VNode))
    (nodeIds : List String) (pairs : List (String × List String)) (v : Vouch) :
    List VLink :=
  let sourceId := toString v.authorProfileId
  let targetId := toString v.subjectProfileId
  if !(nodeIds.contains sourceId) || !(nodeIds.contains targetId) then []
  else
    match mapGet nm sourceId, mapGet nm targetId with
    | some sn, some tn =>
        if !(ringLinkVisible rings sn) || !(ringLinkVisible rings tn) then []
        else
          [{ source := sourceId
             target := targetId
             amountWei := v.balance
             level := max sn.level tn.level
             isReciprocal := pairsHas pairs targetId sourceId }]
    | _, _ => []

def vouchLinks (rootPid : Nat) (userName avatarUrl : String) (vs : List Vouch)
    (rings : RingState) : List VLink :=
  let nm := vouchNodeMap rootPid userName avatarUrl vs
  let nodeIds := vouchVisibleIds rootPid userName avatarUrl vs rings
  let pairs := vouchPairsOf vs
  vs.flatMap (vouchLinkOf rings nm nodeIds pairs)

/-! ### Vouch ring-1 failure handling and the level-2 parallel batch -/

/-- `response.ok`: HTTP status in the 2xx range. -/
def httpOk (status : Nat) : Bool :=
  200 ≤ status && status ≤ 299

/-- Status handling of the invitation-map ring-1 fetch (`fetchInvitees`,
part_000 lines 116-123): the resulting user-visible error message, `none`
on success. -/
def invitationRing1Outcome (status : Nat) (statusText : String) : Option String :=
  if !(httpOk status) then
    if status == 404 then some "No invitations found for this user"
    else some ("Failed to fetch invitations: " ++ statusText)
  else none

/-- Status handling of the vouch-map ring-1 fetch (`fetchVouches`,
vouches-map.tsx lines 203-206): both the given and the received request
must be 2xx, any failure yields one fixed message. -/
def vouchRing1Outcome (givenStatus receivedStatus : Nat) : Option String :=
  if !(httpOk givenStatus) || !(httpOk receivedStatus) then
    some "Failed to fetch vouches"
  else none

/-- Status handling of the review-map ring-1 fetch (reviews-map.tsx lines
191-194). -/
def reviewRing1Outcome (givenStatus receivedStatus : Nat) : Option String :=
  if !(httpOk givenStatus) || !(httpOk receivedStatus) then
    some "Failed to fetch reviews"
  else none

/-- The settled state of one level-2 per-profile task: the request either
threw, or returned a response with an `ok` flag and a `values` payload.
The `try { ... } catch (e) { return []; }` wrapper means the task promise
itself never rejects. -/
inductive Level2Fetch (ρ : Type) where
  | thrown
  | response (ok : Bool) (values : List ρ)
deriving Repr, DecidableEq

/-- Record processing of one vouch level-2 task (vouches-map.tsx lines
325-356): a thrown or non-2xx task contributes no records; a successful one
contributes its funded vouches that point neither at ring 1 nor at the
root, tagged level 2. -/
def vouchLevel2PerProfile (rootPid : Nat) (level1ProfileIds : List Nat)
    (r : Level2Fetch Vouch) : List Vouch :=
  match r with
  | .thrown => []
  | .response ok values =>
      if !ok then []
      else
        values.foldl (fun results v =>
          if level1ProfileIds.contains v.subjectProfileId || v.subjectProfileId == rootPid then
            results
          else if !(isVouchFunded v) then results
          else results ++ [{ v with level := 2 }]) []

/-- `Promise.all(level2Promises)` followed by `.flat()`: the batch joins
every per-profile contribution in order. -/
def vouchLevel2Batch (rootPid : Nat) (level1ProfileIds : List Nat)
    (results : List (Level2Fetch Vouch)) : List Vouch :=
  (results.map (vouchLevel2PerProfile rootPid level1ProfileIds)).flatten

/-! ## Invitation graph (`src/unnamed/part_000`, first copy) -/

/-- A record of the accepted-invitation tree endpoint.  Levels are kept as
integers because the sender-level inference subtracts one without any
floor. -/
structure Invitation where
  id : Nat
  senderProfileId : Nat
  acceptedProfileId : Nat
  level : Int
  user : User
deriving Repr, DecidableEq

/-- `invitation.user.profileId?.toString() || invitation.user.id.toString()`:
the canonical node key of an invitee. -/
def inviteeKey (u : User) : String :=
  match u.profileId with
  | some p => toString p
  | none => toString u.id

/-- The `Node` shape of the invitation map. -/
structure INode where
  id : String
  profileId : Option Nat
  name : String
  username : Option String
  avatarUrl : String
  score : Nat
  isRoot : Bool
  level : Int
deriving Repr, DecidableEq

/-- `const rootProfileId = profileId || userId` (0 is falsy). -/
def invRootPid (userId : Nat) (profileId : Option Nat) : Nat :=
  match profileId with
  | some p => if p = 0 then userId else p
  | none => userId

def trackMinInt (m : List (String × Int)) (k : String) (lvl : Int) :
    List (String × Int) :=
  match mapGet m k with
  | none => mapSet m k lvl
  | some cur => if lvl < cur then mapSet m k lvl else m

/-- The transitively inferred sender level (part_000 lines 240-243): the
first invitation whose invitee key equals the sender key — searched in the
full record list — supplies `level - 1`; otherwise the current record
supplies `level - 1`. -/
def invSenderLevel (invs : List Invitation) (current : Invitation) (senderId : String) : Int :=
  match invs.find? (fun inv => inviteeKey inv.user = senderId) with
  | some senderInvitation => senderInvitation.level - 1
  | none => current.level - 1

/-- One step of the invitation `userMinLevels` first pass (part_000 lines
228-249). -/
def invMinStep (rootId : String) (invs : List Invitation)
    (m : List (String × Int)) (i : Invitation) : List (String × Int) :=
  let m1 := trackMinInt m (inviteeKey i.user) i.level
  let senderId := toString i.senderProfileId
  if senderId ≠ rootId then trackMinInt m1 senderId (invSenderLevel invs i senderId)
  else m1

def invUserMinLevels (rootId : String) (invs : List Invitation) : List (String × Int) :=
  invs.foldl (invMinStep rootId invs) []

/-- The integer-level analogue of the level-lowering update. -/
def lowerLevelI (n : INode) (lvl : Int) : INode :=
  if lvl < n.level then { n with level := lvl } else n

/-- Invitee-side node creation / update of the second pass (part_000 lines
252-274). -/
def invInviteeNode (minL : String → Option Int) (i : Invitation) : Option INode → INode
  | none =>
      { id := inviteeKey i.user
        profileId := i.user.profileId
        name := i.user.displayName
        username := i.user.username
        avatarUrl := i.user.avatarUrl
        score := i.user.score
        isRoot := false
        level := jsOrInt (minL (inviteeKey i.user)) i.level }
  | some node =>
      lowerLevelI node (jsOrInt (minL (inviteeKey i.user)) node.level)

/-- Sender-side node creation / update of the second pass (part_000 lines
277-305).  The update path applies `userMinLevels` directly, with no
falsiness guard and no floor. -/
def invSenderNode (invs : List Invitation) (minL : String → Option Int)
    (i : Invitation) (senderId : String) : Option INode → INode
  | none =>
      let senderInvitation := invs.find? (fun inv => inviteeKey inv.user = senderId)
      let senderLevel := invSenderLevel invs i senderId
      let senderUserInfo := senderInvitation.map Invitation.user
      { id := senderId
        profileId := some i.senderProfileId
        name := jsOrStr (match senderUserInfo with
                         | some u => u.displayName
                         | none => "") ("User " ++ senderId)
        username := match senderUserInfo with
                    | some u => match u.username with
                                | some s => if s = "" then none else some s
                                | none => none
                    | none => none
        avatarUrl := jsOrStr (match senderUserInfo with
                              | some u => u.avatarUrl
                              | none => "") ""
        score := match senderUserInfo with
                 | some u => u.score
                 | none => 0
        isRoot := false
        level := jsOrInt (minL senderId) senderLevel }
  | some node =>
      match minL senderId with
      | some minLevel => lowerLevelI node minLevel
      | none => node

def invNodeStep (rootId : String) (invs : List Invitation) (minL : String → Option Int)
    (m : List (String × INode)) (i : Invitation) : List (String × INode) :=
  let nodeId := inviteeKey i.user
  let m1 := mapSet m nodeId (invInviteeNode minL i (mapGet m nodeId))
  let senderId := toString i.senderProfileId
  if senderId ≠ rootId then
    mapSet m1 senderId (invSenderNode invs minL i senderId (mapGet m1 senderId))
  else m1

/-- The synthesized invitation root node (part_000 lines 212-221). -/
def invRootNode (userId : Nat) (profileId : Option Nat) (userName avatarUrl : String) : INode :=
  { id := toString (invRootPid userId profileId)
    profileId := profileId
    name := userName
    username := none
    avatarUrl := avatarUrl
    score := 0
    isRoot := true
    level := 0 }

/-- The complete invitation `nodeMap` (part_000 lines 224-306). -/
def invNodeMap (userId : Nat) (profileId : Option Nat) (userName avatarUrl : String)
    (invs : List Invitation) : List (String × INode) :=
  let rootId := toString (invRootPid userId profileId)
  let minL := fun k => mapGet (invUserMinLevels rootId invs) k
  invs.foldl (invNodeStep rootId invs minL)
    [(rootId, invRootNode userId profileId userName avatarUrl)]

def invAllNodes (userId : Nat) (profileId : Option Nat) (userName avatarUrl : String)
    (invs : List Invitation) : List INode :=
  (invNodeMap userId profileId userName avatarUrl invs).map Prod.snd

/-- `nodes = allNodes.slice(0, 200)` (part_000 line 310). -/
def invRenderedNodes (userId : Nat) (profileId : Option Nat) (userName avatarUrl : String)
    (invs : List Invitation) : List INode :=
  (invAllNodes userId profileId userName avatarUrl invs).take MAX_TOTAL_NODES

/-- Occurrences of key `k` processed by the invitation second pass from a
single record: the invitee side always, the sender side when the sender key
differs from the root key. -/
def invOccOf (rootId : String) (i : Invitation) (k : String) : Nat :=
  (if inviteeKey i.user == k then 1 else 0)
    + (if toString i.senderProfileId == k && toString i.senderProfileId != rootId then 1 else 0)

def invOccCount (rootId : String) (invs : List Invitation) (k : String) : Nat :=
  (invs.map (fun i => invOccOf rootId i k)).sum

/-- Modelled from the spec: the levels tagged on records referencing an
identity key (as invitee or as sender).  This is the specification's
"minimum level tagged on any record referencing that identity" side of the
minimum-level claim, for comparison with what the code computes. -/
def invTaggedLevels (invs : List Invitation) (k : String) : List Int :=
  invs.filterMap (fun i =>
    if inviteeKey i.user = k ∨ toString i.senderProfileId = k then some i.level else none)

/-! ## Review graph (`src/components/reviews-map.tsx`) -/

inductive Sentiment where
  | positive
  | neutral
  | negative
deriving Repr, DecidableEq

/-- The simplified author / subject reference carried on a review activity
(`{ profileId, name, username, avatar }`).  The interface declares
`profileId : number`; the code still guards it with JavaScript truthiness,
so 0 plays the role of an absent id. -/
structure UserRef where
  profileId : Nat
  name : String
  username : Option String
  avatar : String
deriving Repr, DecidableEq

/-- A review activity tagged with its ring level
(`ReviewActivityWithLevel`). -/
structure Review where
  author : UserRef
  subject : UserRef
  authorUser : User
  subjectUser : User
  sentiment : Sentiment
  level : Nat
deriving Repr, DecidableEq

inductive ReviewType where
  | given
  | received
  | both
  | root
deriving Repr, DecidableEq

/-- The `Node` shape of reviews-map.tsx. -/
structure RNode where
  id : String
  profileId : Option Nat
  name : String
  username : Option String
  avatarUrl : String
  score : Nat
  isRoot : Bool
  reviewType : ReviewType
  level : Nat
deriving Repr, DecidableEq

/-- One step of the review `userMinLevels` first pass (reviews-map.tsx
lines 469-485). -/
def reviewMinStep (rootPid : Nat) (m : List (String × Nat)) (a : Review) :
    List (String × Nat) :=
  let m1 := if a.subject.profileId ≠ 0 then trackMin m (toString a.subject.profileId) a.level
            else m
  if a.author.profileId ≠ 0 ∧ a.author.profileId ≠ rootPid then
    trackMin m1 (toString a.author.profileId) a.level
  else m1

def reviewUserMinLevels (rootPid : Nat) (rs : List Review) : List (String × Nat) :=
  rs.foldl (reviewMinStep rootPid) []

/-- The level-lowering update on review nodes. -/
def lowerLevelR (n : RNode) (lvl : Nat) : RNode :=
  if lvl < n.level then { n with level := lvl } else n

/-- The classifier update on review nodes. -/
def flipBothR (n : RNode) : RNode :=
  if n.reviewType ≠ .both then { n with reviewType := .both } else n

/-- Subject-side node creation / update of the review second pass
(reviews-map.tsx lines 496-523), with the explicit level-0 guards of the
source. -/
def reviewSubjectNode (rootPid : Nat) (minL : String → Option Nat) (a : Review) :
    Option RNode → RNode
  | none =>
      let minLevel := jsOrNat (minL (toString a.subject.profileId)) a.level
      let nodeLevel := if minLevel = 0 then a.level else minLevel
      { id := toString a.subject.profileId
        profileId := some a.subject.profileId
        name := a.subject.name
        username := a.subject.username
        avatarUrl := a.subject.avatar
        score := a.subjectUser.score
        isRoot := false
        reviewType := if a.author.profileId == rootPid then .received else .given
        level := nodeLevel }
  | some node =>
      let minLevel := jsOrNat (minL (toString a.subject.profileId)) node.level
      let nodeLevel := if minLevel = 0 then node.level else Nat.min minLevel node.level
      flipBothR (lowerLevelR node nodeLevel)

/-- Author-side node creation / update of the review second pass
(reviews-map.tsx lines 532-559). -/
def reviewAuthorNode (rootPid : Nat) (minL : String → Option Nat) (a : Review) :
    Option RNode → RNode
  | none =>
      let minLevel := jsOrNat (minL (toString a.author.profileId)) a.level
      let nodeLevel := if minLevel = 0 then a.level else minLevel
      { id := toString a.author.profileId
        profileId := some a.author.profileId
        name := a.author.name
        username := a.author.username
        avatarUrl := a.author.avatar
        score := a.authorUser.score
        isRoot := false
        reviewType := if a.subject.profileId == rootPid then .given else .received
        level := nodeLevel }
  | some node =>
      let minLevel := jsOrNat (minL (toString a.author.profileId)) node.level
      let nodeLevel := if minLevel = 0 then node.level else Nat.min minLevel node.level
      flipBothR (lowerLevelR node nodeLevel)

/-- The author-side branch of the review second pass, including its
`if (authorId === rootId) return` skip. -/
def reviewAuthorStep (rootPid : Nat) (minL : String → Option Nat)
    (m : List (String × RNode)) (a : Review) : List (String × RNode) :=
  if a.author.profileId ≠ 0 ∧ a.author.profileId ≠ rootPid then
    let authorId := toString a.author.profileId
    if authorId = toString rootPid then m
    else mapSet m authorId (reviewAuthorNode rootPid minL a (mapGet m authorId))
  else m

/-- One record of the review second pass (reviews-map.tsx lines 489-561).
The `if (subjectId === rootId) return` inside the subject branch returns
from the whole forEach callback, so a record whose subject is the root is
skipped entirely — its author side is never processed. -/
def reviewNodeStep (rootPid : Nat) (minL : String → Option Nat)
    (m : List (String × RNode)) (a : Review) : List (String × RNode) :=
  if a.subject.profileId ≠ 0 then
    let subjectId := toString a.subject.profileId
    if subjectId = toString rootPid then m
    else
      reviewAuthorStep rootPid minL
        (mapSet m subjectId (reviewSubjectNode rootPid minL a (mapGet m subjectId))) a
  else reviewAuthorStep rootPid minL m a

/-- The synthesized review root node (reviews-map.tsx lines 449-459). -/
def reviewRootNode (rootPid : Nat) (userName avatarUrl : String) : RNode :=
  { id := toString rootPid
    profileId := some rootPid
    name := userName
    username := none
    avatarUrl := avatarUrl
    score := 0
    isRoot := true
    reviewType := .root
    level := 0 }

/-- The complete review `nodeMap` (reviews-map.tsx lines 461-561). -/
def reviewNodeMap (rootPid : Nat) (userName avatarUrl : String) (rs : List Review) :
    List (String × RNode) :=
  let minL := fun k => mapGet (reviewUserMinLevels rootPid rs) k
  rs.foldl (reviewNodeStep rootPid minL)
    [(toString rootPid, reviewRootNode rootPid userName avatarUrl)]

def reviewAllNodes (rootPid : Nat) (userName avatarUrl : String) (rs : List Review) :
    List RNode :=
  (reviewNodeMap rootPid userName avatarUrl rs).map Prod.snd

/-! ### Review ring / sentiment filter (reviews-map.tsx lines 563-698) -/

/-- The per-view sentiment toggle state. -/
structure SentState where
  positive : Bool
  neutral : Bool
  negative : Bool
deriving Repr, DecidableEq

/-- `visibleSentiments[sentiment]`. -/
def sentVisible (s : SentState) : Sentiment → Bool
  | .positive => s.positive
  | .neutral => s.neutral
  | .negative => s.negative

/-- `Object.values(visibleSentiments).some(v => v)`. -/
def hasAnyVisibleSentiment (s : SentState) : Bool :=
  s.positive || s.neutral || s.negative

/-- The node predicate of the review `filteredNodesByRing`. -/
def ringNodeKeepR (rings : RingState) (n : RNode) : Bool :=
  if n.isRoot || n.level == 0 then true
  else if n.level == 1 then (rings 1).getD true
  else (rings n.level).getD false

/-- The endpoint-visibility test of the review filter. -/
def ringLinkVisibleR (rings : RingState) (n : RNode) : Bool :=
  n.isRoot || n.level == 0 || (n.level == 1 && (rings 1).getD true)
    || (rings n.level).getD false

/-- One record of the `visibleLinksMap` / `nodesWithVisibleLinks` fold
(reviews-map.tsx lines 583-616). -/
def reviewVisibleLinkStep (rings : RingState) (sents : SentState)
    (nm : List (String × RNode))
    (acc : List (String × List String) × List String) (a : Review) :
    List (String × List String) × List String :=
  if a.author.profileId = 0 ∨ a.subject.profileId = 0 then acc
  else if !(sentVisible sents a.sentiment) then acc
  else
    match mapGet nm (toString a.author.profileId), mapGet nm (toString a.subject.profileId) with
    | some sn, some tn =>
        if ringLinkVisibleR rings sn && ringLinkVisibleR rings tn then
          (pairsAdd acc.1 (toString a.author.profileId) (toString a.subject.profileId),
            setAdd (setAdd acc.2 (toString a.author.profileId)) (toString a.subject.profileId))
        else acc
    | _, _ => acc

def reviewVisibleLinkState (rootPid : Nat) (userName avatarUrl : String)
    (rs : List Review) (rings : RingState) (sents : SentState) :
    List (String × List String) × List String :=
  let nm := reviewNodeMap rootPid userName avatarUrl rs
  rs.foldl (reviewVisibleLinkStep rings sents nm) ([], [])

/-- The body of the BFS inner forEach (reviews-map.tsx lines 632-637): a
target is enqueued and marked reached when it is new and has a visible
link.  The accumulator carries (reached, queue). -/
def bfsEnqueue (cand : List String) (acc : List String × List String) (t : String) :
    List String × List String :=
  if !(acc.1.contains t) && cand.contains t then (acc.1 ++ [t], acc.2 ++ [t]) else acc

/-- The body of the BFS while-loop (reviews-map.tsx lines 628-639),
written with explicit fuel: each iteration dequeues one node, and since a
node is enqueued at most once the loop runs at most `cand.length + 1`
times, which is the fuel the caller supplies. -/
def bfsLoop (adjOf : String → List String) (cand : List String) :
    Nat → List String → List String → List String
  | 0, _, reached => reached
  | _ + 1, [], reached => reached
  | fuel + 1, cur :: rest, reached =>
      let step := (adjOf cur).foldl (bfsEnqueue cand) (reached, rest)
      bfsLoop adjOf cand fuel step.2 step.1

/-- `reachableNodes` (reviews-map.tsx lines 618-640): breadth-first search
from the root over the visible directed links, run only when some
sentiment is enabled and the root has a visible incident link. -/
def reviewReachableNodes (rootPid : Nat) (userName avatarUrl : String)
    (rs : List Review) (rings : RingState) (sents : SentState) : List String :=
  let rootId := toString rootPid
  let st := reviewVisibleLinkState rootPid userName avatarUrl rs rings sents
  let adjOf := fun s => (mapGet st.1 s).getD []
  if hasAnyVisibleSentiment sents && st.2.contains rootId then
    bfsLoop adjOf st.2 (st.2.length + 1) [rootId] [rootId]
  else []

/-- `finalNodeIds` (reviews-map.tsx lines 642-651): reachable nodes that
are ring-visible (or the root), and nothing at all when every sentiment is
disabled. -/
def reviewFinalNodeIds (rootPid : Nat) (userName avatarUrl : String)
    (rs : List Review) (rings : RingState) (sents : SentState) : List String :=
  let rootId := toString rootPid
  let allNodes := reviewAllNodes rootPid userName avatarUrl rs
  let visibleIds := (allNodes.filter (ringNodeKeepR rings)).map RNode.id
  if hasAnyVisibleSentiment sents then
    (reviewReachableNodes rootPid userName avatarUrl rs rings sents).filter
      (fun id => visibleIds.contains id || id == rootId)
  else []

/-- The visible review node list (reviews-map.tsx lines 653-656). -/
def reviewVisibleNodes (rootPid : Nat) (userName avatarUrl : String)
    (rs : List Review) (rings : RingState) (sents : SentState) : List RNode :=
  ((reviewAllNodes rootPid userName avatarUrl rs).filter
    (fun n => (reviewFinalNodeIds rootPid userName avatarUrl rs rings sents).contains n.id)).take
    MAX_TOTAL_NODES

def reviewVisibleIds (rootPid : Nat) (userName avatarUrl : String)
    (rs : List Review) (rings : RingState) (sents : SentState) : List String :=
  (reviewVisibleNodes rootPid userName avatarUrl rs rings sents).map RNode.id

/-- The `Link` shape of reviews-map.tsx. -/
structure RLink where
  source : String
  target : String
  sentiment : Sentiment
deriving Repr, DecidableEq

/-- The keep-predicate of the review `links` filter (reviews-map.tsx lines
660-689). -/
def reviewLinkKeep (rings : RingState) (sents : SentState)
    (nm : List (String × RNode)) (nodeIds : List String) (a : Review) : Bool :=
  if a.author.profileId = 0 ∨ a.subject.profileId = 0 then false
  else if !(nodeIds.contains (toString a.author.profileId))
      || !(nodeIds.contains (toString a.subject.profileId)) then false
  else
    match mapGet nm (toString a.author.profileId),
        mapGet nm (toString a.subject.profileId) with
    | some sn, some tn =>
        if !(ringLinkVisibleR rings sn) || !(ringLinkVisibleR rings tn) then false
        else sentVisible sents a.sentiment
    | _, _ => false

def reviewLinks (rootPid : Nat) (userName avatarUrl : String)
    (rs : List Review) (rings : RingState) (sents : SentState) : List RLink :=
  let nm := reviewNodeMap rootPid userName avatarUrl rs
  let nodeIds := reviewVisibleIds rootPid userName avatarUrl rs rings sents
  (rs.filter (reviewLinkKeep rings sents nm nodeIds)).map (fun a =>
    { source := toString a.author.profileId
      target := toString a.subject.profileId
      sentiment := a.sentiment })

/-- One traversable (visible) edge of the review graph: a record whose both
profile ids are truthy, whose sentiment is enabled, and whose both endpoint
nodes are ring-visible — the edges the `visibleLinksMap` BFS walks. -/
def reviewTraversable (rootPid : Nat) (userName avatarUrl : String)
    (rs : List Review) (rings : RingState) (sents : SentState) (x y : String) : Prop :=
  ∃ a ∈ rs, a.author.profileId ≠ 0 ∧ a.subject.profileId ≠ 0 ∧
    sentVisible sents a.sentiment = true ∧
    (∃ sn tn, mapGet (reviewNodeMap rootPid userName avatarUrl rs) (toString a.author.profileId) = some sn ∧
      mapGet (reviewNodeMap rootPid userName avatarUrl rs) (toString a.subject.profileId) = some tn ∧
      ringLinkVisibleR rings sn = true ∧ ringLinkVisibleR rings tn = true) ∧
    toString a.author.profileId = x ∧ toString a.subject.profileId = y

/-- Record processing of one review level-2 task (reviews-map.tsx lines
230-286): the task fetches the profile's given and received activity lists
in parallel; a thrown task contributes nothing, a non-2xx sub-response
contributes nothing, and each successful sub-response contributes its
records (page-limited to 20) tagged level 2. -/
def MAX_LEVEL_2_NODES_PER_PROFILE_REVIEWS : Nat := 20

inductive ReviewLevel2Fetch where
  | thrown
  | completed (givenOk : Bool) (givenValues : List Review)
      (receivedOk : Bool) (receivedValues : List Review)
deriving Repr, DecidableEq

def reviewLevel2PerProfile (r : ReviewLevel2Fetch) : List Review :=
  match r with
  | .thrown => []
  | .completed givenOk givenValues receivedOk receivedValues =>
      (if givenOk then
        (givenValues.take MAX_LEVEL_2_NODES_PER_PROFILE_REVIEWS).foldl
          (fun results a =>
            if a.subject.profileId ≠ 0 then results ++ [{ a with level := 2 }] else results) []
      else [])
      ++
      (if receivedOk then
        (receivedValues.take MAX_LEVEL_2_NODES_PER_PROFILE_REVIEWS).foldl
          (fun results a =>
            if a.author.profileId ≠ 0 then results ++ [{ a with level := 2 }] else results) []
      else [])

/-- `Promise.all(level2Promises)` followed by `.flat()` for the review
graph. -/
def reviewLevel2Batch (results : List ReviewLevel2Fetch) : List Review :=
  (results.map reviewLevel2PerProfile).flatten

/-! ## Specification-side notions used to state the properties -/

/-- The levels tagged on records referencing the identity keyed `k`
(records mention an identity on the subject side, or on the non-root
author side). -/
def vouchTaggedLevels (rootPid : Nat) (vs : List Vouch) (k : String) : List Nat :=
  vs.filterMap (fun v => if vouchRefs rootPid v k = true then some v.level else none)

/-- Minimum combination of two optional minima. -/
def optMin : Option Nat → Option Nat → Option Nat
  | none, b => b
  | some a, none => some a
  | some a, some b => some (Nat.min a b)

/-- The minimum of a list of levels, `none` for the empty list. -/
def minOfList : List Nat → Option Nat
  | [] => none
  | x :: l => optMin (some x) (minOfList l)

/-- Two identities are adjacent in a rendered edge list if some edge joins
them, in either direction. -/
def linkAdjacent (links : List VLink) (x y : String) : Prop :=
  ∃ l ∈ links, (l.source = x ∧ l.target = y) ∨ (l.source = y ∧ l.target = x)

/-- Connectivity through a rendered edge list, ignoring edge direction. -/
def linkReachable (links : List VLink) (x y : String) : Prop :=
  Relation.ReflTransGen (linkAdjacent links) x y

/-- The invariant maintained by the vouch node-map fold: the root entry
stays first, untouched except for its classifier; every other present
entry is keyed by its own id, is a non-root node whose level is the
tracked minimum, whose classifier is `both` exactly when the identity has
been processed at least twice, and which after a single occurrence carries
the single-sided classifier of that occurrence. -/
def VouchNodeInv (rootPid : Nat) (minL : String → Option Nat)
    (processed : List Vouch) (m : List (String × VNode)) : Prop :=
  (∃ r rest, m = (toString rootPid, r) :: rest ∧ r.isRoot = true ∧ r.level = 0) ∧
  ∀ k, k ≠ toString rootPid →
    (mapGet m k = none → vouchOccCount rootPid processed k = 0) ∧
    (∀ n, mapGet m k = some n →
      1 ≤ vouchOccCount rootPid processed k ∧ n.id = k ∧ n.isRoot = false ∧
      (∃ mm, minL k = some mm ∧ 1 ≤ mm ∧ n.level = mm) ∧
      (n.vouchType = .both ↔ 2 ≤ vouchOccCount rootPid processed k) ∧
      (vouchOccCount rootPid processed k = 1 →
        ∃ v ∈ processed, vouchOccOf rootPid v k = 1 ∧
          n.vouchType = vouchSingleType rootPid v k))

/-- The presence invariant of the invitation node-map fold. -/
def InvNodeInv (rootId : String) (processed : List Invitation)
    (m : List (String × INode)) : Prop :=
  (mapGet m rootId).isSome ∧
  ∀ k, k ≠ rootId →
    (mapGet m k = none → invOccCount rootId processed k = 0) ∧
    ((mapGet m k).isSome → 1 ≤ invOccCount rootId processed k)

/-! ## Concrete sample data used by witnesses and counterexamples -/

def sampleUser (pid : Nat) (nm : String) : User :=
  { id := pid + 10, profileId := some pid, displayName := nm, username := none,
    avatarUrl := "", score := 0 }

/-- Root 100 invites identity 1 at ring 1. -/
def sampleInv1 : Invitation :=
  { id := 1, senderProfileId := 100, acceptedProfileId := 1, level := 1,
    user := sampleUser 1 "A" }

/-- Identity 1 invites identity 2 at ring 2. -/
def sampleInv2 : Invitation :=
  { id := 2, senderProfileId := 1, acceptedProfileId := 2, level := 2,
    user := sampleUser 2 "B" }

/-- Identity 2 invites identity 3 at ring 3. -/
def sampleInv3 : Invitation :=
  { id := 3, senderProfileId := 2, acceptedProfileId := 3, level := 3,
    user := sampleUser 3 "C" }

/-- Root 100 invites identity 1, tagged level 2. -/
def sampleInvJ1 : Invitation :=
  { id := 1, senderProfileId := 100, acceptedProfileId := 1, level := 2,
    user := sampleUser 1 "A" }

/-- Root 100 invites identity 1 again, tagged level 3. -/
def sampleInvJ2 : Invitation :=
  { id := 2, senderProfileId := 100, acceptedProfileId := 1, level := 3,
    user := sampleUser 1 "A" }

/-- Identity 1 invites identity 2, tagged level 3. -/
def sampleInvJ3 : Invitation :=
  { id := 3, senderProfileId := 1, acceptedProfileId := 2, level := 3,
    user := sampleUser 2 "B" }

/-- A funded ring-1 vouch from root 100 to identity 2. -/
def sampleVouchRoot2 : Vouch :=
  { authorProfileId := 100, subjectProfileId := 2,
    authorUser := sampleUser 100 "Root", subjectUser := sampleUser 2 "B",
    balance := some 5, level := 1 }

/-- A funded ring-2 vouch between identities 5 and 6, neither of which has
any other connection. -/
def sampleVouch56 : Vouch :=
  { authorProfileId := 5, subjectProfileId := 6,
    authorUser := sampleUser 5 "E", subjectUser := sampleUser 6 "F",
    balance := some 5, level := 2 }

/-- The reverse funded ring-2 vouch from identity 6 to identity 5. -/
def sampleVouch65 : Vouch :=
  { authorProfileId := 6, subjectProfileId := 5,
    authorUser := sampleUser 6 "F", subjectUser := sampleUser 5 "E",
    balance := some 7, level := 2 }

/-- The ring state with rings 1 and 2 enabled and ring 3 disabled. -/
def sampleRings12 : RingState :=
  fun l => if l = 1 then some true else if l = 2 then some true
           else if l = 3 then some false else none

/-- A positive ring-1 review from root 100 to identity 2. -/
def sampleReviewRoot2 : Review :=
  { author := { profileId := 100, name := "Root", username := none, avatar := "" }
    subject := { profileId := 2, name := "B", username := none, avatar := "" }
    authorUser := sampleUser 100 "Root", subjectUser := sampleUser 2 "B"
    sentiment := .positive, level := 1 }

def sentAllOn : SentState := { positive := true, neutral := true, negative := true }

def sentAllOff : SentState := { positive := false, neutral := false, negative := false }

/-- A second funded ring-1 vouch from root 100 to identity 2: identity 2 is
again encountered on the subject (receiving) side. -/
def sampleVouchRoot2b : Vouch :=
  { authorProfileId := 100, subjectProfileId := 2,
    authorUser := sampleUser 100 "Root", subjectUser := sampleUser 2 "B",
    balance := some 7, level := 1 }

instance : Inhabited VNode := ⟨vouchRootNode 0 "" ""⟩

instance : Inhabited VLink :=
  ⟨{ source := "", target := "", amountWei := none, level := 0, isReciprocal := false }⟩

instance : Inhabited RLink := ⟨{ source := "", target := "", sentiment := .positive }⟩

/-- A vouch level-2 task that failed: it threw, or its response was not
2xx.  Such a task contributes no records. -/
def level2Failed {ρ : Type} : Level2Fetch ρ → Bool
  | .thrown => true
  | .response ok _ => !ok

/-- A review level-2 task that failed entirely: it threw, or both of its
sub-responses were not 2xx. -/
def reviewLevel2Failed : ReviewLevel2Fetch → Bool
  | .thrown => true
  | .completed givenOk _ receivedOk _ => !givenOk && !receivedOk

end EthosScanner

namespace EthosScanner

/-! ## Association-list lemmas -/

theorem mapGet_mapSet_self {α : Type} (m : List (String × α)) (k : String) (v : α) :
    mapGet (mapSet m k v) k = some v := by
  induction m with
  | nil => simp [mapSet, mapGet]
  | cons p rest ih =>
      obtain ⟨k0, w⟩ := p
      by_cases h : k0 = k <;> simp [mapSet, mapGet, h, ih]

theorem mapGet_mapSet_ne {α : Type} (m : List (String × α)) (k key : String) (v : α)
    (h : key ≠ k) : mapGet (mapSet m k v) key = mapGet m key := by
  have hk : ¬ k = key := fun hh => h hh.symm
  induction m with
  | nil => simp [mapSet, mapGet, hk]
  | cons p rest ih =>
      obtain ⟨k0, w⟩ := p
      by_cases h0 : k0 = k
      · subst h0
        simp [mapSet, mapGet, hk]
      · by_cases h1 : k0 = key <;> simp [mapSet, mapGet, h0, h1, ih, h]

theorem mapGet_mem {α : Type} {m : List (String × α)} {k : String} {v : α}
    (h : mapGet m k = some v) : (k, v) ∈ m := by
  induction m with
  | nil => simp [mapGet] at h
  | cons p rest ih =>
      obtain ⟨k0, w⟩ := p
      by_cases h0 : k0 = k
      · subst h0
        simp [mapGet] at h
        simp [h]
      · simp [mapGet, h0] at h
        exact List.mem_cons_of_mem _ (ih h)

theorem mapSet_forall {α : Type} {P : String × α → Prop} {m : List (String × α)}
    {k : String} {v : α} (hm : ∀ p ∈ m, P p) (hv : P (k, v)) :
    ∀ p ∈ mapSet m k v, P p := by
  induction m with
  | nil => simpa [mapSet] using hv
  | cons p rest ih =>
      obtain ⟨k0, w⟩ := p
      by_cases h0 : k0 = k
      · subst h0
        intro q hq
        simp only [mapSet, if_pos rfl] at hq
        rcases List.mem_cons.1 hq with rfl | hq
        · exact hv
        · exact hm _ (List.mem_cons_of_mem _ hq)
      · intro q hq
        simp only [mapSet, if_neg h0] at hq
        rcases List.mem_cons.1 hq with rfl | hq
        · exact hm _ (List.mem_cons_self _ _)
        · exact ih (fun p hp => hm p (List.mem_cons_of_mem _ hp)) _ hq

theorem mapSet_keys_sub {α : Type} (m : List (String × α)) (k : String) (v : α) :
    ∀ x ∈ (mapSet m k v).map Prod.fst, x ∈ m.map Prod.fst ∨ x = k := by
  induction m with
  | nil => simp [mapSet]
  | cons p rest ih =>
      obtain ⟨k0, w⟩ := p
      by_cases h0 : k0 = k
      · subst h0
        intro x hx
        simp only [mapSet, if_pos rfl] at hx
        left
        simpa using hx
      · intro x hx
        simp only [mapSet, if_neg h0, List.map_cons, List.mem_cons] at hx
        rcases hx with rfl | hx
        · left; simp
        · rcases ih x hx with hh | hh
          · left; rw [List.map_cons]; exact List.mem_cons_of_mem _ hh
          · right; exact hh

theorem mapSet_keys_nodup {α : Type} {m : List (String × α)} (k : String) (v : α)
    (h : (m.map Prod.fst).Nodup) : ((mapSet m k v).map Prod.fst).Nodup := by
  induction m with
  | nil => simp [mapSet]
  | cons p rest ih =>
      obtain ⟨k0, w⟩ := p
      rw [List.map_cons, List.nodup_cons] at h
      by_cases h0 : k0 = k
      · subst h0
        have hset : mapSet ((k0, w) :: rest) k0 v = (k0, v) :: rest := by simp [mapSet]
        rw [hset, List.map_cons, List.nodup_cons]
        exact h
      · have htail := ih h.2
        simp only [mapSet, if_neg h0, List.map_cons, List.nodup_cons]
        refine ⟨?_, htail⟩
        intro hmem
        rcases mapSet_keys_sub rest k v k0 hmem with hh | hh
        · exact h.1 hh
        · exact h0 hh

theorem countP_values_eq_zero {α : Type} (idOf : α → String) {m : List (String × α)}
    {k : String} (hpairs : ∀ p ∈ m, idOf p.2 = p.1) (hk : k ∉ m.map Prod.fst) :
    (m.map Prod.snd).countP (fun x => idOf x == k) = 0 := by
  induction m with
  | nil => simp
  | cons p rest ih =>
      obtain ⟨k0, w⟩ := p
      rw [List.map_cons, List.mem_cons, not_or] at hk
      have hw : idOf w = k0 := hpairs (k0, w) (List.mem_cons_self _ _)
      have hwk : (idOf w == k) = false := by
        refine beq_eq_false_iff_ne.2 ?_
        rw [hw]
        exact fun hh => hk.1 hh.symm
      rw [List.map_cons, List.countP_cons, hwk]
      simp only [Bool.false_eq_true, if_false, Nat.add_zero]
      exact ih (fun p hp => hpairs p (List.mem_cons_of_mem _ hp)) hk.2

theorem countP_values_of_get {α : Type} (idOf : α → String) {m : List (String × α)}
    (k : String) (hpairs : ∀ p ∈ m, idOf p.2 = p.1)
    (hnodup : (m.map Prod.fst).Nodup) :
    (m.map Prod.snd).countP (fun x => idOf x == k)
      = if (mapGet m k).isSome then 1 else 0 := by
  induction m with
  | nil => simp [mapGet]
  | cons p rest ih =>
      obtain ⟨k0, w⟩ := p
      rw [List.map_cons, List.nodup_cons] at hnodup
      have hw : idOf w = k0 := hpairs (k0, w) (List.mem_cons_self _ _)
      have htail := ih (fun p hp => hpairs p (List.mem_cons_of_mem _ hp)) hnodup.2
      by_cases h0 : k0 = k
      · subst h0
        have hz : (rest.map Prod.snd).countP (fun x => idOf x == k0) = 0 :=
          countP_values_eq_zero idOf
            (fun p hp => hpairs p (List.mem_cons_of_mem _ hp)) hnodup.1
        have hwk : (idOf w == k0) = true := beq_iff_eq.2 hw
        rw [List.map_cons, List.countP_cons, hwk, hz]
        simp [mapGet]
      · have hwk : (idOf w == k) = false := by
          refine beq_eq_false_iff_ne.2 ?_
          rw [hw]
          exact h0
        rw [List.map_cons, List.countP_cons, hwk]
        simp only [Bool.false_eq_true, if_false, Nat.add_zero]
        rw [htail]
        simp [mapGet, h0]

/-! ## Minimum-tracking lemmas -/

theorem optMin_none_right (a : Option Nat) : optMin a none = a := by
  cases a <;> rfl

theorem optMin_assoc (a b c : Option Nat) :
    optMin (optMin a b) c = optMin a (optMin b c) := by
  cases a <;> cases b <;> cases c <;> simp [optMin, Nat.min_assoc]

theorem optMin_ite_same (a : Option Nat) (b1 b2 : Bool) (l : Nat) :
    optMin (optMin a (if b1 then some l else none)) (if b2 then some l else none)
      = optMin a (if b1 || b2 then some l else none) := by
  cases a <;> cases b1 <;> cases b2 <;> simp [optMin, Nat.min_assoc]

theorem minOfList_eq_none {l : List Nat} (h : minOfList l = none) : l = [] := by
  cases l with
  | nil => rfl
  | cons a b =>
      rw [minOfList] at h
      cases hb : minOfList b <;> rw [hb] at h <;> simp [optMin] at h

theorem minOfList_mem {l : List Nat} {m : Nat} (h : minOfList l = some m) : m ∈ l := by
  induction l generalizing m with
  | nil => simp [minOfList] at h
  | cons x t ih =>
      rw [minOfList] at h
      cases ht : minOfList t with
      | none =>
          rw [ht] at h
          simp [optMin] at h
          simp [h]
      | some mt =>
          rw [ht] at h
          simp [optMin] at h
          have h2 : min x mt = m := h
          rcases Nat.le_total x mt with hc | hc
          · rw [← h2, Nat.min_eq_left hc]
            simp
          · rw [← h2, Nat.min_eq_right hc]
            right
            exact ih ht

theorem minOfList_le {l : List Nat} {m : Nat} (h : minOfList l = some m) :
    ∀ x ∈ l, m ≤ x := by
  induction l generalizing m with
  | nil => simp
  | cons x t ih =>
      rw [minOfList] at h
      cases ht : minOfList t with
      | none =>
          have htn : t = [] := minOfList_eq_none ht
          rw [ht] at h
          simp [optMin] at h
          intro y hy
          rcases List.mem_cons.1 hy with rfl | hy
          · exact Nat.le_of_eq h.symm
          · rw [htn] at hy
            simp at hy
      | some mt =>
          rw [ht] at h
          simp [optMin] at h
          have h2 : min x mt = m := h
          have hl := Nat.min_le_left x mt
          have hr := Nat.min_le_right x mt
          intro y hy
          rcases List.mem_cons.1 hy with rfl | hy
          · omega
          · have := ih ht y hy
            omega

theorem minOfList_isSome {l : List Nat} {x : Nat} (h : x ∈ l) :
    (minOfList l).isSome := by
  cases l with
  | nil => simp at h
  | cons a t =>
      rw [minOfList]
      cases minOfList t <;> simp [optMin]

theorem trackMin_get (m : List (String × Nat)) (k key : String) (lvl : Nat) :
    mapGet (trackMin m k lvl) key
      = if key = k then optMin (mapGet m k) (some lvl) else mapGet m key := by
  by_cases hkey : key = k
  · subst hkey
    rw [trackMin]
    cases hget : mapGet m key with
    | none => simp [optMin, hget, mapGet_mapSet_self]
    | some cur =>
        by_cases hlt : lvl < cur
        · simp [hget, hlt, optMin, mapGet_mapSet_self, Nat.min_eq_right hlt.le]
        · simp [hget, hlt, optMin, Nat.min_eq_left (Nat.le_of_not_lt hlt)]
  · rw [trackMin]
    cases hget : mapGet m k with
    | none => simp [hkey, mapGet_mapSet_ne _ _ _ _ hkey]
    | some cur =>
        by_cases hlt : lvl < cur <;>
          simp [hkey, hlt, mapGet_mapSet_ne _ _ _ _ hkey]

theorem vouchSubjHit_iff {v : Vouch} {k : String} :
    vouchSubjHit v k = true ↔ v.subjectProfileId ≠ 0 ∧ toString v.subjectProfileId = k := by
  simp [vouchSubjHit]

theorem vouchAuthHit_iff {rootPid : Nat} {v : Vouch} {k : String} :
    vouchAuthHit rootPid v k = true
      ↔ v.authorProfileId ≠ 0 ∧ v.authorProfileId ≠ rootPid ∧ toString v.authorProfileId = k := by
  simp [vouchAuthHit, and_assoc]

theorem vouchMinStep_get (rootPid : Nat) (m : List (String × Nat)) (v : Vouch)
    (key : String) :
    mapGet (vouchMinStep rootPid m v) key
      = optMin (mapGet m key)
          (if vouchRefs rootPid v key then some v.level else none) := by
  have hsubj : ∀ mm : List (String × Nat),
      mapGet (if v.subjectProfileId ≠ 0 then trackMin mm (toString v.subjectProfileId) v.level
              else mm) key
        = optMin (mapGet mm key) (if vouchSubjHit v key then some v.level else none) := by
    intro mm
    by_cases hsg : v.subjectProfileId ≠ 0
    · rw [if_pos hsg, trackMin_get]
      by_cases hkey : key = toString v.subjectProfileId
      · have hhit : vouchSubjHit v key = true := vouchSubjHit_iff.2 ⟨hsg, hkey.symm⟩
        rw [if_pos hkey, hhit, if_pos rfl, hkey]
      · have hhit : vouchSubjHit v key = false := by
          rcases hh : vouchSubjHit v key with _ | _
          · rfl
          · exact absurd (vouchSubjHit_iff.1 hh).2.symm hkey
        rw [if_neg hkey, hhit]
        simp [optMin_none_right]
    · rw [if_neg hsg]
      have hhit : vouchSubjHit v key = false := by
        rcases hh : vouchSubjHit v key with _ | _
        · rfl
        · exact absurd (vouchSubjHit_iff.1 hh).1 hsg
      rw [hhit]
      simp [optMin_none_right]
  have hauth : ∀ mm : List (String × Nat),
      mapGet (if v.authorProfileId ≠ 0 ∧ v.authorProfileId ≠ rootPid then
                trackMin mm (toString v.authorProfileId) v.level
              else mm) key
        = optMin (mapGet mm key) (if vouchAuthHit rootPid v key then some v.level else none) := by
    intro mm
    by_cases hag : v.authorProfileId ≠ 0 ∧ v.authorProfileId ≠ rootPid
    · rw [if_pos hag, trackMin_get]
      by_cases hkey : key = toString v.authorProfileId
      · have hhit : vouchAuthHit rootPid v key = true :=
          vouchAuthHit_iff.2 ⟨hag.1, hag.2, hkey.symm⟩
        rw [if_pos hkey, hhit, if_pos rfl, hkey]
      · have hhit : vouchAuthHit rootPid v key = false := by
          rcases hh : vouchAuthHit rootPid v key with _ | _
          · rfl
          · exact absurd (vouchAuthHit_iff.1 hh).2.2.symm hkey
        rw [if_neg hkey, hhit]
        simp [optMin_none_right]
    · rw [if_neg hag]
      have hhit : vouchAuthHit rootPid v key = false := by
        rcases hh : vouchAuthHit rootPid v key with _ | _
        · rfl
        · obtain ⟨h1, h2, _⟩ := vouchAuthHit_iff.1 hh
          exact (hag ⟨h1, h2⟩).elim
      rw [hhit]
      simp [optMin_none_right]
  rw [vouchMinStep]
  show mapGet (if v.authorProfileId ≠ 0 ∧ v.authorProfileId ≠ rootPid then _ else _) key = _
  rw [hauth, hsubj, optMin_ite_same]
  rfl

theorem vouchTaggedLevels_cons (rootPid : Nat) (v : Vouch) (t : List Vouch) (key : String) :
    vouchTaggedLevels rootPid (v :: t) key
      = (if vouchRefs rootPid v key = true then [v.level] else [])
          ++ vouchTaggedLevels rootPid t key := by
  simp only [vouchTaggedLevels, List.filterMap_cons]
  by_cases h : vouchRefs rootPid v key = true
  · rw [if_pos h, if_pos h]
    rfl
  · rw [if_neg h, if_neg h]
    rfl

theorem vouchMinFold_get (rootPid : Nat) :
    ∀ (vs : List Vouch) (m : List (String × Nat)) (key : String),
      mapGet (vs.foldl (vouchMinStep rootPid) m) key
        = optMin (mapGet m key) (minOfList (vouchTaggedLevels rootPid vs key)) := by
  intro vs
  induction vs with
  | nil => intro m key; simp [vouchTaggedLevels, minOfList, optMin_none_right]
  | cons v t ih =>
      intro m key
      rw [List.foldl_cons, ih, vouchMinStep_get, optMin_assoc, vouchTaggedLevels_cons]
      congr 1
      by_cases h : vouchRefs rootPid v key = true
      · rw [if_pos h, if_pos h, List.singleton_append, minOfList]
      · rw [if_neg h, if_neg h, List.nil_append]
        rfl

theorem vouchUserMinLevels_get (rootPid : Nat) (vs : List Vouch) (key : String) :
    mapGet (vouchUserMinLevels rootPid vs) key
      = minOfList (vouchTaggedLevels rootPid vs key) := by
  rw [vouchUserMinLevels, vouchMinFold_get]
  rfl

theorem vouchTaggedLevels_mem {rootPid : Nat} {vs : List Vouch} {k : String} {x : Nat} :
    x ∈ vouchTaggedLevels rootPid vs k
      ↔ ∃ v ∈ vs, vouchRefs rootPid v k = true ∧ x = v.level := by
  rw [vouchTaggedLevels]
  simp only [List.mem_filterMap]
  constructor
  · rintro ⟨v, hv, hx⟩
    by_cases h : vouchRefs rootPid v k
    · rw [if_pos h] at hx
      exact ⟨v, hv, h, (Option.some_inj.1 hx).symm⟩
    · rw [if_neg h] at hx
      exact absurd hx (by simp)
  · rintro ⟨v, hv, h, rfl⟩
    exact ⟨v, hv, by rw [if_pos h]⟩

/-! ## Vouch node-map lemmas -/

theorem lowerLevelV_id (n : VNode) (lvl : Nat) : (lowerLevelV n lvl).id = n.id := by
  rw [lowerLevelV]; split <;> rfl

theorem lowerLevelV_isRoot (n : VNode) (lvl : Nat) :
    (lowerLevelV n lvl).isRoot = n.isRoot := by
  rw [lowerLevelV]; split <;> rfl

theorem lowerLevelV_vouchType (n : VNode) (lvl : Nat) :
    (lowerLevelV n lvl).vouchType = n.vouchType := by
  rw [lowerLevelV]; split <;> rfl

theorem lowerLevelV_level_self (n : VNode) : lowerLevelV n n.level = n := by
  rw [lowerLevelV, if_neg (Nat.lt_irrefl _)]

theorem lowerLevelV_level_zero (n : VNode) (lvl : Nat) (h : n.level = 0) :
    (lowerLevelV n lvl).level = 0 := by
  rw [lowerLevelV, h]
  split <;> simp_all

theorem flipBothV_id (n : VNode) : (flipBothV n).id = n.id := by
  rw [flipBothV]; split <;> rfl

theorem flipBothV_isRoot (n : VNode) : (flipBothV n).isRoot = n.isRoot := by
  rw [flipBothV]; split <;> rfl

theorem flipBothV_level (n : VNode) : (flipBothV n).level = n.level := by
  rw [flipBothV]; split <;> rfl

theorem flipBothV_vouchType (n : VNode) : (flipBothV n).vouchType = .both := by
  rw [flipBothV]
  by_cases h : n.vouchType ≠ VouchType.both
  · rw [if_pos h]
  · rw [if_neg h]
    exact not_not.1 h

theorem vouchSubjectStep_get_miss (rootPid : Nat) (minL : String → Option Nat)
    (m : List (String × VNode)) (v : Vouch) (key : String)
    (hs : vouchSubjHit v key = false) :
    mapGet (vouchSubjectStep rootPid minL m v) key = mapGet m key := by
  rw [vouchSubjectStep]
  by_cases hg : v.subjectProfileId ≠ 0
  · rw [if_pos hg]
    have hne : key ≠ toString v.subjectProfileId := by
      intro hh
      rw [vouchSubjHit_iff.2 ⟨hg, hh.symm⟩] at hs
      exact absurd hs (by simp)
    exact mapGet_mapSet_ne _ _ _ _ hne
  · rw [if_neg hg]

theorem vouchSubjectStep_get_hit (rootPid : Nat) (minL : String → Option Nat)
    (m : List (String × VNode)) (v : Vouch) (key : String)
    (hs : vouchSubjHit v key = true) :
    mapGet (vouchSubjectStep rootPid minL m v) key
      = some (vouchSubjectNode rootPid minL v (mapGet m key)) := by
  obtain ⟨hg, hkey⟩ := vouchSubjHit_iff.1 hs
  rw [vouchSubjectStep, if_pos hg, hkey, mapGet_mapSet_self]

theorem vouchAuthorStep_get_miss (rootPid : Nat) (minL : String → Option Nat)
    (m : List (String × VNode)) (v : Vouch) (key : String)
    (ha : vouchAuthHit rootPid v key = false) :
    mapGet (vouchAuthorStep rootPid minL m v) key = mapGet m key := by
  rw [vouchAuthorStep]
  by_cases hg : v.authorProfileId ≠ 0 ∧ v.authorProfileId ≠ rootPid
  · rw [if_pos hg]
    have hne : key ≠ toString v.authorProfileId := by
      intro hh
      rw [vouchAuthHit_iff.2 ⟨hg.1, hg.2, hh.symm⟩] at ha
      exact absurd ha (by simp)
    exact mapGet_mapSet_ne _ _ _ _ hne
  · rw [if_neg hg]

theorem vouchAuthorStep_get_hit (rootPid : Nat) (minL : String → Option Nat)
    (m : List (String × VNode)) (v : Vouch) (key : String)
    (ha : vouchAuthHit rootPid v key = true) :
    mapGet (vouchAuthorStep rootPid minL m v) key
      = some (vouchAuthorNode rootPid minL v (mapGet m key)) := by
  obtain ⟨hg1, hg2, hkey⟩ := vouchAuthHit_iff.1 ha
  rw [vouchAuthorStep, if_pos (And.intro hg1 hg2), hkey, mapGet_mapSet_self]

theorem vouchSubjectNode_some_id (rootPid : Nat) (minL : String → Option Nat)
    (v : Vouch) (o : VNode) :
    (vouchSubjectNode rootPid minL v (some o)).id = o.id := by
  rw [vouchSubjectNode, flipBothV_id, lowerLevelV_id]

theorem vouchSubjectNode_some_isRoot (rootPid : Nat) (minL : String → Option Nat)
    (v : Vouch) (o : VNode) :
    (vouchSubjectNode rootPid minL v (some o)).isRoot = o.isRoot := by
  rw [vouchSubjectNode, flipBothV_isRoot, lowerLevelV_isRoot]

theorem vouchSubjectNode_some_type (rootPid : Nat) (minL : String → Option Nat)
    (v : Vouch) (o : VNode) :
    (vouchSubjectNode rootPid minL v (some o)).vouchType = .both := by
  rw [vouchSubjectNode, flipBothV_vouchType]

theorem vouchSubjectNode_some_level_eq (rootPid : Nat) (minL : String → Option Nat)
    (v : Vouch) (o : VNode) {mm : Nat}
    (hmm : minL (toString v.subjectProfileId) = some mm) (h0 : mm ≠ 0)
    (hl : o.level = mm) :
    (vouchSubjectNode rootPid minL v (some o)).level = mm := by
  rw [vouchSubjectNode, flipBothV_level, hmm]
  have : jsOrNat (some mm) o.level = mm := by rw [jsOrNat, if_neg h0]
  rw [this, ← hl, lowerLevelV_level_self, hl]

theorem vouchSubjectNode_some_level_zero (rootPid : Nat) (minL : String → Option Nat)
    (v : Vouch) (o : VNode) (hl : o.level = 0) :
    (vouchSubjectNode rootPid minL v (some o)).level = 0 := by
  rw [vouchSubjectNode, flipBothV_level]
  exact lowerLevelV_level_zero _ _ hl

theorem vouchAuthorNode_some_id (rootPid : Nat) (minL : String → Option Nat)
    (v : Vouch) (o : VNode) :
    (vouchAuthorNode rootPid minL v (some o)).id = o.id := by
  rw [vouchAuthorNode, flipBothV_id, lowerLevelV_id]

theorem vouchAuthorNode_some_isRoot (rootPid : Nat) (minL : String → Option Nat)
    (v : Vouch) (o : VNode) :
    (vouchAuthorNode rootPid minL v (some o)).isRoot = o.isRoot := by
  rw [vouchAuthorNode, flipBothV_isRoot, lowerLevelV_isRoot]

theorem vouchAuthorNode_some_type (rootPid : Nat) (minL : String → Option Nat)
    (v : Vouch) (o : VNode) :
    (vouchAuthorNode rootPid minL v (some o)).vouchType = .both := by
  rw [vouchAuthorNode, flipBothV_vouchType]

theorem vouchAuthorNode_some_level_eq (rootPid : Nat) (minL : String → Option Nat)
    (v : Vouch) (o : VNode) {mm : Nat}
    (hmm : minL (toString v.authorProfileId) = some mm) (h0 : mm ≠ 0)
    (hl : o.level = mm) :
    (vouchAuthorNode rootPid minL v (some o)).level = mm := by
  rw [vouchAuthorNode, flipBothV_level, hmm]
  have : jsOrNat (some mm) o.level = mm := by rw [jsOrNat, if_neg h0]
  rw [this, ← hl, lowerLevelV_level_self, hl]

theorem vouchAuthorNode_some_level_zero (rootPid : Nat) (minL : String → Option Nat)
    (v : Vouch) (o : VNode) (hl : o.level = 0) :
    (vouchAuthorNode rootPid minL v (some o)).level = 0 := by
  rw [vouchAuthorNode, flipBothV_level]
  exact lowerLevelV_level_zero _ _ hl

theorem vouchOccCount_append (rootPid : Nat) (p q : List Vouch) (k : String) :
    vouchOccCount rootPid (p ++ q) k = vouchOccCount rootPid p k + vouchOccCount rootPid q k := by
  rw [vouchOccCount, vouchOccCount, vouchOccCount, List.map_append, List.sum_append]

theorem vouchOccCount_singleton (rootPid : Nat) (v : Vouch) (k : String) :
    vouchOccCount rootPid [v] k = vouchOccOf rootPid v k := by
  simp [vouchOccCount]

theorem vouchOccOf_split (rootPid : Nat) (v : Vouch) (k : String) :
    vouchOccOf rootPid v k
      = (if vouchSubjHit v k then 1 else 0) + (if vouchAuthHit rootPid v k then 1 else 0) := rfl

theorem mapSet_cons_eq {α : Type} (rest : List (String × α)) (k : String) (v w : α) :
    mapSet ((k, w) :: rest) k v = (k, v) :: rest := by
  simp [mapSet]

theorem mapSet_cons_ne {α : Type} (rest : List (String × α)) (k0 : String) (w : α)
    (k : String) (v : α) (h : k0 ≠ k) :
    mapSet ((k0, w) :: rest) k v = (k0, w) :: mapSet rest k v := by
  simp [mapSet, h]

theorem vouchSubjectNode_none_proj (rootPid : Nat) (minL : String → Option Nat) (v : Vouch) :
    (vouchSubjectNode rootPid minL v none).id = toString v.subjectProfileId ∧
    (vouchSubjectNode rootPid minL v none).isRoot = false ∧
    (vouchSubjectNode rootPid minL v none).level
      = jsOrNat (minL (toString v.subjectProfileId)) v.level ∧
    (vouchSubjectNode rootPid minL v none).vouchType
      = (if v.authorProfileId == rootPid then VouchType.received else VouchType.given) :=
  ⟨rfl, rfl, rfl, rfl⟩

theorem vouchAuthorNode_none_proj (rootPid : Nat) (minL : String → Option Nat) (v : Vouch) :
    (vouchAuthorNode rootPid minL v none).id = toString v.authorProfileId ∧
    (vouchAuthorNode rootPid minL v none).isRoot = false ∧
    (vouchAuthorNode rootPid minL v none).level
      = jsOrNat (minL (toString v.authorProfileId)) v.level ∧
    (vouchAuthorNode rootPid minL v none).vouchType
      = (if v.subjectProfileId == rootPid then VouchType.given else VouchType.received) :=
  ⟨rfl, rfl, rfl, rfl⟩

theorem vouchCreationType_ne_both (c : Bool) :
    (if c then VouchType.received else VouchType.given) ≠ VouchType.both := by
  cases c <;> simp

theorem vouchCreationTypeG_ne_both (c : Bool) :
    (if c then VouchType.given else VouchType.received) ≠ VouchType.both := by
  cases c <;> simp

theorem mapGet_cons_self {α : Type} (k : String) (v : α) (rest : List (String × α)) :
    mapGet ((k, v) :: rest) k = some v := by
  simp [mapGet]

theorem vouchSubjectStep_rootShape (rootPid : Nat) (minL : String → Option Nat)
    (m : List (String × VNode)) (v : Vouch) {rootKey : String} {r : VNode}
    {rest : List (String × VNode)} (hm : m = (rootKey, r) :: rest)
    (hroot : r.isRoot = true) (hlvl : r.level = 0) :
    ∃ r2 rest2, vouchSubjectStep rootPid minL m v = (rootKey, r2) :: rest2 ∧
      r2.isRoot = true ∧ r2.level = 0 := by
  rw [vouchSubjectStep]
  by_cases hg : v.subjectProfileId ≠ 0
  · rw [if_pos hg]
    by_cases hkey : rootKey = toString v.subjectProfileId
    · subst hm
      simp only [← hkey, mapGet_cons_self, mapSet_cons_eq]
      refine ⟨_, rest, rfl, ?_, ?_⟩
      · rw [vouchSubjectNode_some_isRoot, hroot]
      · exact vouchSubjectNode_some_level_zero _ _ _ _ hlvl
    · subst hm
      simp only [mapSet_cons_ne _ _ _ _ _ hkey]
      exact ⟨r, _, rfl, hroot, hlvl⟩
  · rw [if_neg hg]
    exact ⟨r, rest, hm, hroot, hlvl⟩

theorem vouchAuthorStep_rootShape (rootPid : Nat) (minL : String → Option Nat)
    (m : List (String × VNode)) (v : Vouch) {rootKey : String} {r : VNode}
    {rest : List (String × VNode)} (hm : m = (rootKey, r) :: rest)
    (hroot : r.isRoot = true) (hlvl : r.level = 0) :
    ∃ r2 rest2, vouchAuthorStep rootPid minL m v = (rootKey, r2) :: rest2 ∧
      r2.isRoot = true ∧ r2.level = 0 := by
  rw [vouchAuthorStep]
  by_cases hg : v.authorProfileId ≠ 0 ∧ v.authorProfileId ≠ rootPid
  · rw [if_pos hg]
    by_cases hkey : rootKey = toString v.authorProfileId
    · subst hm
      simp only [← hkey, mapGet_cons_self, mapSet_cons_eq]
      refine ⟨_, rest, rfl, ?_, ?_⟩
      · rw [vouchAuthorNode_some_isRoot, hroot]
      · exact vouchAuthorNode_some_level_zero _ _ _ _ hlvl
    · subst hm
      simp only [mapSet_cons_ne _ _ _ _ _ hkey]
      exact ⟨r, _, rfl, hroot, hlvl⟩
  · rw [if_neg hg]
    exact ⟨r, rest, hm, hroot, hlvl⟩

theorem vouchNodeStep_inv (rootPid : Nat) (minL : String → Option Nat)
    (p : List Vouch) (m : List (String × VNode)) (v : Vouch)
    (hmin1 : ∀ k mm, minL k = some mm → 1 ≤ mm)
    (hminSome : ∀ k, vouchRefs rootPid v k = true → (minL k).isSome)
    (h : VouchNodeInv rootPid minL p m) :
    VouchNodeInv rootPid minL (p ++ [v]) (vouchNodeStep rootPid minL m v) := by
  obtain ⟨⟨r, rest, hshape, hrroot, hrlvl⟩, hmain⟩ := h
  constructor
  · obtain ⟨r2, rest2, hsh2, hr2, hl2⟩ :=
      vouchSubjectStep_rootShape rootPid minL m v hshape hrroot hrlvl
    exact vouchAuthorStep_rootShape rootPid minL _ v hsh2 hr2 hl2
  · intro k hk
    have hocc : vouchOccCount rootPid (p ++ [v]) k
        = vouchOccCount rootPid p k + vouchOccOf rootPid v k := by
      rw [vouchOccCount_append, vouchOccCount_singleton]
    by_cases hs : vouchSubjHit v k
    · -- the subject side mentions k
      have hrefs : vouchRefs rootPid v k = true := by simp [vouchRefs, hs]
      obtain ⟨mm, hmm⟩ := Option.isSome_iff_exists.1 (hminSome k hrefs)
      have hmm1 : 1 ≤ mm := hmin1 k mm hmm
      have hskey : toString v.subjectProfileId = k := (vouchSubjHit_iff.1 hs).2
      have hmmS : minL (toString v.subjectProfileId) = some mm := by rw [hskey]; exact hmm
      -- facts about the subject-step result node
      have hinner :
          (vouchSubjectNode rootPid minL v (mapGet m k)).id = k ∧
          (vouchSubjectNode rootPid minL v (mapGet m k)).isRoot = false ∧
          (vouchSubjectNode rootPid minL v (mapGet m k)).level = mm := by
        cases hmo : mapGet m k with
        | none =>
            obtain ⟨hid, hro, hlv, _⟩ := vouchSubjectNode_none_proj rootPid minL v
            refine ⟨by rw [hid, hskey], hro, ?_⟩
            rw [hlv, hmmS, jsOrNat, if_neg (by omega)]
        | some o =>
            obtain ⟨_, _, _, ⟨mo, hmo1, hmo2, hmo3⟩, _, _⟩ := (hmain k hk).2 o hmo
            have : mo = mm := by rw [hmm] at hmo1; exact (Option.some_inj.1 hmo1).symm
            subst this
            exact ⟨by rw [vouchSubjectNode_some_id]
                      exact ((hmain k hk).2 o hmo).2.1,
                   by rw [vouchSubjectNode_some_isRoot]
                      exact ((hmain k hk).2 o hmo).2.2.1,
                   vouchSubjectNode_some_level_eq _ _ _ _ hmmS (by omega) hmo3⟩
      have hgets : mapGet (vouchSubjectStep rootPid minL m v) k
          = some (vouchSubjectNode rootPid minL v (mapGet m k)) :=
        vouchSubjectStep_get_hit rootPid minL m v k hs
      by_cases ha : vouchAuthHit rootPid v k
      · -- both sides mention k: the final node is the author update of the subject result
        have hoccv : vouchOccOf rootPid v k = 2 := by simp [vouchOccOf, hs, ha]
        have hakey : toString v.authorProfileId = k := (vouchAuthHit_iff.1 ha).2.2
        have hmmA : minL (toString v.authorProfileId) = some mm := by rw [hakey]; exact hmm
        have hget2 : mapGet (vouchNodeStep rootPid minL m v) k
            = some (vouchAuthorNode rootPid minL v
                (some (vouchSubjectNode rootPid minL v (mapGet m k)))) := by
          rw [vouchNodeStep, vouchAuthorStep_get_hit rootPid minL _ v k ha, hgets]
        constructor
        · intro hnone
          rw [hget2] at hnone
          exact absurd hnone (by simp)
        · intro n hn
          rw [hget2] at hn
          replace hn := Option.some_inj.1 hn
          subst hn
          refine ⟨by omega, ?_, ?_, ⟨mm, hmm, hmm1, ?_⟩, ?_, ?_⟩
          · rw [vouchAuthorNode_some_id]; exact hinner.1
          · rw [vouchAuthorNode_some_isRoot]; exact hinner.2.1
          · exact vouchAuthorNode_some_level_eq _ _ _ _ hmmA (by omega) hinner.2.2
          · rw [vouchAuthorNode_some_type]
            constructor
            · intro _; omega
            · intro _; rfl
          · intro h1
            omega
      · -- only the subject side mentions k
        have hoccv : vouchOccOf rootPid v k = 1 := by simp [vouchOccOf, hs, ha]
        have hget2 : mapGet (vouchNodeStep rootPid minL m v) k
            = some (vouchSubjectNode rootPid minL v (mapGet m k)) := by
          rw [vouchNodeStep, vouchAuthorStep_get_miss rootPid minL _ v k (by simpa using ha),
            hgets]
        constructor
        · intro hnone
          rw [hget2] at hnone
          exact absurd hnone (by simp)
        · intro n hn
          rw [hget2] at hn
          replace hn := Option.some_inj.1 hn
          subst hn
          cases hmo : mapGet m k with
          | none =>
              have hocc0 : vouchOccCount rootPid p k = 0 := (hmain k hk).1 hmo
              obtain ⟨hid, hro, hlv, hty⟩ := vouchSubjectNode_none_proj rootPid minL v
              refine ⟨by omega, by rw [hid, hskey], hro,
                ⟨mm, hmm, hmm1, by rw [hlv, hmmS, jsOrNat, if_neg (by omega)]⟩, ?_, ?_⟩
              · rw [hty]
                constructor
                · intro hb
                  exact absurd hb (vouchCreationType_ne_both _)
                · intro hb
                  omega
              · intro _
                refine ⟨v, by simp, by rw [hoccv], ?_⟩
                rw [hty, vouchSingleType, if_pos hs]
          | some o =>
              obtain ⟨ho1, ho2, ho3, ⟨mo, hmo1, hmo2, hmo3⟩, ho5, ho6⟩ := (hmain k hk).2 o hmo
              have hmoeq : mo = mm := by rw [hmm] at hmo1; exact (Option.some_inj.1 hmo1).symm
              subst hmoeq
              refine ⟨by omega, by rw [vouchSubjectNode_some_id]; exact ho2,
                by rw [vouchSubjectNode_some_isRoot]; exact ho3,
                ⟨mo, hmm, hmo2, vouchSubjectNode_some_level_eq _ _ _ _ hmmS (by omega) hmo3⟩,
                ?_, ?_⟩
              · rw [vouchSubjectNode_some_type]
                constructor
                · intro _; omega
                · intro _; rfl
              · intro h1
                omega
    · -- the subject side does not mention k
      have hms : mapGet (vouchSubjectStep rootPid minL m v) k = mapGet m k :=
        vouchSubjectStep_get_miss rootPid minL m v k (by simpa using hs)
      by_cases ha : vouchAuthHit rootPid v k
      · -- only the author side mentions k
        have hrefs : vouchRefs rootPid v k = true := by simp [vouchRefs, ha]
        obtain ⟨mm, hmm⟩ := Option.isSome_iff_exists.1 (hminSome k hrefs)
        have hmm1 : 1 ≤ mm := hmin1 k mm hmm
        have hakey : toString v.authorProfileId = k := (vouchAuthHit_iff.1 ha).2.2
        have hmmA : minL (toString v.authorProfileId) = some mm := by rw [hakey]; exact hmm
        have hoccv : vouchOccOf rootPid v k = 1 := by simp [vouchOccOf, hs, ha]
        have hget2 : mapGet (vouchNodeStep rootPid minL m v) k
            = some (vouchAuthorNode rootPid minL v (mapGet m k)) := by
          rw [vouchNodeStep, vouchAuthorStep_get_hit rootPid minL _ v k ha, hms]
        constructor
        · intro hnone
          rw [hget2] at hnone
          exact absurd hnone (by simp)
        · intro n hn
          rw [hget2] at hn
          replace hn := Option.some_inj.1 hn
          subst hn
          cases hmo : mapGet m k with
          | none =>
              have hocc0 : vouchOccCount rootPid p k = 0 := (hmain k hk).1 hmo
              obtain ⟨hid, hro, hlv, hty⟩ := vouchAuthorNode_none_proj rootPid minL v
              refine ⟨by omega, by rw [hid, hakey], hro,
                ⟨mm, hmm, hmm1, by rw [hlv, hmmA, jsOrNat, if_neg (by omega)]⟩, ?_, ?_⟩
              · rw [hty]
                constructor
                · intro hb
                  exact absurd hb (vouchCreationTypeG_ne_both _)
                · intro hb
                  omega
              · intro _
                refine ⟨v, by simp, by rw [hoccv], ?_⟩
                rw [hty, vouchSingleType, if_neg hs]
          | some o =>
              obtain ⟨ho1, ho2, ho3, ⟨mo, hmo1, hmo2, hmo3⟩, ho5, ho6⟩ := (hmain k hk).2 o hmo
              have hmoeq : mo = mm := by rw [hmm] at hmo1; exact (Option.some_inj.1 hmo1).symm
              subst hmoeq
              refine ⟨by omega, by rw [vouchAuthorNode_some_id]; exact ho2,
                by rw [vouchAuthorNode_some_isRoot]; exact ho3,
                ⟨mo, hmm, hmo2, vouchAuthorNode_some_level_eq _ _ _ _ hmmA (by omega) hmo3⟩,
                ?_, ?_⟩
              · rw [vouchAuthorNode_some_type]
                constructor
                · intro _; omega
                · intro _; rfl
              · intro h1
                omega
      · -- neither side mentions k: nothing changes for k
        have hoccv : vouchOccOf rootPid v k = 0 := by simp [vouchOccOf, hs, ha]
        have hget2 : mapGet (vouchNodeStep rootPid minL m v) k = mapGet m k := by
          rw [vouchNodeStep, vouchAuthorStep_get_miss rootPid minL _ v k (by simpa using ha),
            hms]
        constructor
        · intro hnone
          rw [hget2] at hnone
          rw [hocc, hoccv, (hmain k hk).1 hnone]
        · intro n hn
          rw [hget2] at hn
          obtain ⟨ho1, ho2, ho3, ho4, ho5, ho6⟩ := (hmain k hk).2 n hn
          refine ⟨by omega, ho2, ho3, ho4, by rw [ho5]; omega, ?_⟩
          intro h1
          have h2 : vouchOccCount rootPid p k = 1 := by omega
          obtain ⟨w, hw, hw1, hw2⟩ := ho6 h2
          exact ⟨w, List.mem_append_left _ hw, hw1, hw2⟩

theorem vouchNodeFold_inv (rootPid : Nat) (minL : String → Option Nat)
    (hmin1 : ∀ k mm, minL k = some mm → 1 ≤ mm) :
    ∀ (l p : List Vouch) (m : List (String × VNode)),
      (∀ v ∈ l, ∀ k, vouchRefs rootPid v k = true → (minL k).isSome) →
      VouchNodeInv rootPid minL p m →
      VouchNodeInv rootPid minL (p ++ l) (l.foldl (vouchNodeStep rootPid minL) m) := by
  intro l
  induction l with
  | nil =>
      intro p m _ h
      simpa using h
  | cons v t ih =>
      intro p m hl h
      rw [List.foldl_cons]
      have h1 := vouchNodeStep_inv rootPid minL p m v hmin1
        (hl v (List.mem_cons_self _ _)) h
      have h2 := ih (p ++ [v]) _
        (fun w hw k hk => hl w (List.mem_cons_of_mem _ hw) k hk) h1
      rw [List.append_assoc] at h2
      simpa using h2

theorem vouchUserMinLevels_pos (rootPid : Nat) (vs : List Vouch)
    (hlev : ∀ v ∈ vs, 1 ≤ v.level) :
    ∀ k mm, mapGet (vouchUserMinLevels rootPid vs) k = some mm → 1 ≤ mm := by
  intro k mm h
  rw [vouchUserMinLevels_get] at h
  obtain ⟨v, hv, _, rfl⟩ := vouchTaggedLevels_mem.1 (minOfList_mem h)
  exact hlev v hv

theorem vouchUserMinLevels_isSome (rootPid : Nat) (vs : List Vouch) :
    ∀ v ∈ vs, ∀ k, vouchRefs rootPid v k = true →
      (mapGet (vouchUserMinLevels rootPid vs) k).isSome := by
  intro v hv k hk
  rw [vouchUserMinLevels_get]
  exact minOfList_isSome (vouchTaggedLevels_mem.2 ⟨v, hv, hk, rfl⟩)

theorem vouchNodeMap_inv (rootPid : Nat) (userName avatarUrl : String) (vs : List Vouch)
    (hlev : ∀ v ∈ vs, 1 ≤ v.level) :
    VouchNodeInv rootPid (fun k => mapGet (vouchUserMinLevels rootPid vs) k) vs
      (vouchNodeMap rootPid userName avatarUrl vs) := by
  have hinit : VouchNodeInv rootPid (fun k => mapGet (vouchUserMinLevels rootPid vs) k) []
      [(toString rootPid, vouchRootNode rootPid userName avatarUrl)] := by
    constructor
    · exact ⟨_, [], rfl, rfl, rfl⟩
    · intro k hk
      have hne : ¬ toString rootPid = k := fun hh => hk hh.symm
      have hget : mapGet [(toString rootPid, vouchRootNode rootPid userName avatarUrl)] k
          = none := by
        simp [mapGet, hne]
      constructor
      · intro _
        simp [vouchOccCount]
      · intro n hn
        rw [hget] at hn
        exact absurd hn (by simp)
  have h := vouchNodeFold_inv rootPid (fun k => mapGet (vouchUserMinLevels rootPid vs) k)
    (vouchUserMinLevels_pos rootPid vs hlev) vs []
    [(toString rootPid, vouchRootNode rootPid userName avatarUrl)]
    (fun v hv k hk => vouchUserMinLevels_isSome rootPid vs v hv k hk) hinit
  simpa [vouchNodeMap] using h

theorem vouchSubjectStep_keys_nodup (rootPid : Nat) (minL : String → Option Nat)
    (m : List (String × VNode)) (v : Vouch)
    (h : (m.map Prod.fst).Nodup) :
    ((vouchSubjectStep rootPid minL m v).map Prod.fst).Nodup := by
  rw [vouchSubjectStep]
  split
  · exact mapSet_keys_nodup _ _ h
  · exact h

theorem vouchAuthorStep_keys_nodup (rootPid : Nat) (minL : String → Option Nat)
    (m : List (String × VNode)) (v : Vouch)
    (h : (m.map Prod.fst).Nodup) :
    ((vouchAuthorStep rootPid minL m v).map Prod.fst).Nodup := by
  rw [vouchAuthorStep]
  split
  · exact mapSet_keys_nodup _ _ h
  · exact h

theorem vouchNodeMap_keys_nodup (rootPid : Nat) (userName avatarUrl : String)
    (vs : List Vouch) :
    ((vouchNodeMap rootPid userName avatarUrl vs).map Prod.fst).Nodup := by
  rw [vouchNodeMap]
  generalize (fun k => mapGet (vouchUserMinLevels rootPid vs) k) = minL
  have : ∀ (l : List Vouch) (m : List (String × VNode)), (m.map Prod.fst).Nodup →
      ((l.foldl (vouchNodeStep rootPid minL) m).map Prod.fst).Nodup := by
    intro l
    induction l with
    | nil => intro m h; simpa using h
    | cons v t ih =>
        intro m h
        rw [List.foldl_cons]
        exact ih _ (vouchAuthorStep_keys_nodup rootPid minL _ v
          (vouchSubjectStep_keys_nodup rootPid minL m v h))
  exact this vs _ (by simp)

theorem vouchSubjectStep_coherent (rootPid : Nat) (minL : String → Option Nat)
    (m : List (String × VNode)) (v : Vouch)
    (h : ∀ q ∈ m, (Prod.snd q).id = Prod.fst q) :
    ∀ q ∈ vouchSubjectStep rootPid minL m v, (Prod.snd q).id = Prod.fst q := by
  rw [vouchSubjectStep]
  split
  · refine mapSet_forall h ?_
    cases hmo : mapGet m (toString v.subjectProfileId) with
    | none => exact (vouchSubjectNode_none_proj rootPid minL v).1
    | some o =>
        show (vouchSubjectNode rootPid minL v (some o)).id = toString v.subjectProfileId
        rw [vouchSubjectNode_some_id]
        exact h _ (mapGet_mem hmo)
  · exact h

theorem vouchAuthorStep_coherent (rootPid : Nat) (minL : String → Option Nat)
    (m : List (String × VNode)) (v : Vouch)
    (h : ∀ q ∈ m, (Prod.snd q).id = Prod.fst q) :
    ∀ q ∈ vouchAuthorStep rootPid minL m v, (Prod.snd q).id = Prod.fst q := by
  rw [vouchAuthorStep]
  split
  · refine mapSet_forall h ?_
    cases hmo : mapGet m (toString v.authorProfileId) with
    | none => exact (vouchAuthorNode_none_proj rootPid minL v).1
    | some o =>
        show (vouchAuthorNode rootPid minL v (some o)).id = toString v.authorProfileId
        rw [vouchAuthorNode_some_id]
        exact h _ (mapGet_mem hmo)
  · exact h

theorem vouchNodeMap_coherent (rootPid : Nat) (userName avatarUrl : String)
    (vs : List Vouch) :
    ∀ q ∈ vouchNodeMap rootPid userName avatarUrl vs, (Prod.snd q).id = Prod.fst q := by
  rw [vouchNodeMap]
  generalize (fun k => mapGet (vouchUserMinLevels rootPid vs) k) = minL
  have : ∀ (l : List Vouch) (m : List (String × VNode)),
      (∀ q ∈ m, (Prod.snd q).id = Prod.fst q) →
      ∀ q ∈ l.foldl (vouchNodeStep rootPid minL) m, (Prod.snd q).id = Prod.fst q := by
    intro l
    induction l with
    | nil => intro m h; simpa using h
    | cons v t ih =>
        intro m h
        rw [List.foldl_cons]
        exact ih _ (vouchAuthorStep_coherent rootPid minL _ v
          (vouchSubjectStep_coherent rootPid minL m v h))
  refine this vs _ ?_
  intro q hq
  rcases List.mem_singleton.1 hq with rfl
  rfl

theorem vouchRefs_occOf {rootPid : Nat} {v : Vouch} {k : String} :
    vouchRefs rootPid v k = true ↔ 1 ≤ vouchOccOf rootPid v k := by
  rw [vouchRefs, vouchOccOf]
  cases hs : vouchSubjHit v k <;> cases ha : vouchAuthHit rootPid v k <;> simp

theorem vouchOccCount_pos {rootPid : Nat} {vs : List Vouch} {k : String} {v : Vouch}
    (hv : v ∈ vs) (h : vouchRefs rootPid v k = true) :
    1 ≤ vouchOccCount rootPid vs k := by
  have h1 : 1 ≤ vouchOccOf rootPid v k := vouchRefs_occOf.1 h
  have h2 : vouchOccOf rootPid v k ≤ vouchOccCount rootPid vs k := by
    rw [vouchOccCount]
    exact List.single_le_sum (fun x _ => Nat.zero_le x) _
      (List.mem_map.2 ⟨v, hv, rfl⟩)
  omega

theorem vouchOccCount_eq_zero {rootPid : Nat} {vs : List Vouch} {k : String}
    (h : ∀ v ∈ vs, vouchRefs rootPid v k = false) :
    vouchOccCount rootPid vs k = 0 := by
  rw [vouchOccCount]
  rw [List.sum_eq_zero]
  intro x hx
  obtain ⟨v, hv, rfl⟩ := List.mem_map.1 hx
  have := h v hv
  rw [vouchOccOf]
  rw [vouchRefs] at this
  cases hs : vouchSubjHit v k <;> cases ha : vouchAuthHit rootPid v k <;>
    rw [hs, ha] at this <;> simp_all

theorem vouchOccCount_reverse (rootPid : Nat) (vs : List Vouch) (k : String) :
    vouchOccCount rootPid vs.reverse k = vouchOccCount rootPid vs k := by
  rw [vouchOccCount, vouchOccCount, List.map_reverse, List.sum_reverse]

/-! ## Invitation node-map lemmas -/

theorem mapGet_mapSet_isSome {α : Type} (m : List (String × α)) (k k2 : String) (v : α)
    (h : (mapGet m k).isSome) : (mapGet (mapSet m k2 v) k).isSome := by
  by_cases hk : k = k2
  · subst hk
    rw [mapGet_mapSet_self]
    rfl
  · rw [mapGet_mapSet_ne _ _ _ _ hk]
    exact h

theorem invNodeStep_inv (rootId : String) (invs : List Invitation)
    (minL : String → Option Int) (p : List Invitation)
    (m : List (String × INode)) (i : Invitation)
    (h : InvNodeInv rootId p m) :
    InvNodeInv rootId (p ++ [i]) (invNodeStep rootId invs minL m i) := by
  obtain ⟨hroot, hmain⟩ := h
  have hocc : ∀ k, invOccCount rootId (p ++ [i]) k
      = invOccCount rootId p k + invOccOf rootId i k := by
    intro k
    unfold invOccCount
    rw [List.map_append, List.sum_append]
    simp
  constructor
  · -- root stays present
    rw [invNodeStep]
    split
    · exact mapGet_mapSet_isSome _ _ _ _ (mapGet_mapSet_isSome _ _ _ _ hroot)
    · exact mapGet_mapSet_isSome _ _ _ _ hroot
  · intro k hk
    have hsplit : mapGet (invNodeStep rootId invs minL m i) k = none →
        (inviteeKey i.user ≠ k ∧
          ¬(toString i.senderProfileId = k ∧ toString i.senderProfileId ≠ rootId) ∧
          mapGet m k = none) := by
      intro hnone
      rw [invNodeStep] at hnone
      by_cases hsg : toString i.senderProfileId ≠ rootId
      · rw [if_pos hsg] at hnone
        by_cases hks : k = toString i.senderProfileId
        · rw [hks, mapGet_mapSet_self] at hnone
          exact absurd hnone (by simp)
        · rw [mapGet_mapSet_ne _ _ _ _ hks] at hnone
          by_cases hki : k = inviteeKey i.user
          · rw [hki, mapGet_mapSet_self] at hnone
            exact absurd hnone (by simp)
          · rw [mapGet_mapSet_ne _ _ _ _ hki] at hnone
            exact ⟨fun hh => hki hh.symm, fun hh => hks hh.1.symm, hnone⟩
      · rw [if_neg hsg] at hnone
        by_cases hki : k = inviteeKey i.user
        · rw [hki, mapGet_mapSet_self] at hnone
          exact absurd hnone (by simp)
        · rw [mapGet_mapSet_ne _ _ _ _ hki] at hnone
          exact ⟨fun hh => hki hh.symm, fun hh => absurd hh.2 (by simpa using hsg), hnone⟩
    constructor
    · intro hnone
      obtain ⟨h1, h2, h3⟩ := hsplit hnone
      have hoccof : invOccOf rootId i k = 0 := by
        rw [invOccOf]
        have e1 : (inviteeKey i.user == k) = false := by
          simp
          exact h1
        have e2 : (toString i.senderProfileId == k
            && toString i.senderProfileId != rootId) = false := by
          rcases hsk : toString i.senderProfileId == k with _ | _
          · rfl
          · rcases hsr : toString i.senderProfileId != rootId with _ | _
            · rfl
            · exact absurd ⟨by simpa using hsk, by simpa using hsr⟩ h2
        rw [e1, e2]
        rfl
      rw [hocc, hoccof, (hmain k hk).1 h3]
    · intro hsome
      by_cases hki : inviteeKey i.user = k
      · have : 1 ≤ invOccOf rootId i k := by
          rw [invOccOf]
          have e1 : (inviteeKey i.user == k) = true := by simpa using hki
          rw [e1]
          simp
        rw [hocc k]
        omega
      · by_cases hks : toString i.senderProfileId = k ∧ toString i.senderProfileId ≠ rootId
        · have : 1 ≤ invOccOf rootId i k := by
            rw [invOccOf]
            have e2 : (toString i.senderProfileId == k
                && toString i.senderProfileId != rootId) = true := by
              rw [hks.1]
              simp [bne_iff_ne]
              exact hk
            rw [e2]
            simp
          rw [hocc k]
          omega
        · -- neither side touches k, so the map at k is unchanged
          have hget : mapGet (invNodeStep rootId invs minL m i) k = mapGet m k := by
            rw [invNodeStep]
            by_cases hsg : toString i.senderProfileId ≠ rootId
            · rw [if_pos hsg]
              have hne2 : k ≠ toString i.senderProfileId := by
                intro hh
                exact hks ⟨hh.symm, hsg⟩
              rw [mapGet_mapSet_ne _ _ _ _ hne2,
                mapGet_mapSet_ne _ _ _ _ (fun hh => hki hh.symm)]
            · rw [if_neg hsg]
              rw [mapGet_mapSet_ne _ _ _ _ (fun hh => hki hh.symm)]
          rw [hget] at hsome
          have := (hmain k hk).2 hsome
          rw [hocc k]
          omega

theorem invNodeMap_inv (userId : Nat) (profileId : Option Nat)
    (userName avatarUrl : String) (invs : List Invitation) :
    InvNodeInv (toString (invRootPid userId profileId)) invs
      (invNodeMap userId profileId userName avatarUrl invs) := by
  rw [invNodeMap]
  have hgen : ∀ (l p : List Invitation) (m : List (String × INode)),
      InvNodeInv (toString (invRootPid userId profileId)) p m →
      InvNodeInv (toString (invRootPid userId profileId)) (p ++ l)
        (l.foldl (invNodeStep (toString (invRootPid userId profileId)) invs
          (fun k => mapGet (invUserMinLevels (toString (invRootPid userId profileId)) invs) k)) m) := by
    intro l
    induction l with
    | nil => intro p m h; simpa using h
    | cons i t ih =>
        intro p m h
        rw [List.foldl_cons]
        have h1 := invNodeStep_inv (toString (invRootPid userId profileId)) invs
          (fun k => mapGet (invUserMinLevels (toString (invRootPid userId profileId)) invs) k)
          p m i h
        have h2 := ih (p ++ [i]) _ h1
        rw [List.append_assoc] at h2
        simpa using h2
  have hinit : InvNodeInv (toString (invRootPid userId profileId)) []
      [(toString (invRootPid userId profileId),
        invRootNode userId profileId userName avatarUrl)] := by
    constructor
    · rw [mapGet_cons_self]
      rfl
    · intro k hk
      have hne : ¬ toString (invRootPid userId profileId) = k := fun hh => hk hh.symm
      have hget : mapGet [(toString (invRootPid userId profileId),
          invRootNode userId profileId userName avatarUrl)] k = none := by
        simp [mapGet, hne]
      constructor
      · intro _
        simp [invOccCount]
      · intro hsome
        rw [hget] at hsome
        exact absurd hsome (by simp)
  simpa using hgen invs [] _ hinit

theorem invNodeStep_keys_nodup (rootId : String) (invs : List Invitation)
    (minL : String → Option Int) (m : List (String × INode)) (i : Invitation)
    (h : (m.map Prod.fst).Nodup) :
    ((invNodeStep rootId invs minL m i).map Prod.fst).Nodup := by
  rw [invNodeStep]
  split
  · exact mapSet_keys_nodup _ _ (mapSet_keys_nodup _ _ h)
  · exact mapSet_keys_nodup _ _ h

theorem invNodeMap_keys_nodup (userId : Nat) (profileId : Option Nat)
    (userName avatarUrl : String) (invs : List Invitation) :
    ((invNodeMap userId profileId userName avatarUrl invs).map Prod.fst).Nodup := by
  rw [invNodeMap]
  have hgen : ∀ (l : List Invitation) (m : List (String × INode)),
      (m.map Prod.fst).Nodup →
      ((l.foldl (invNodeStep (toString (invRootPid userId profileId)) invs
        (fun k => mapGet (invUserMinLevels (toString (invRootPid userId profileId)) invs) k)) m).map
          Prod.fst).Nodup := by
    intro l
    induction l with
    | nil => intro m h; simpa using h
    | cons i t ih =>
        intro m h
        rw [List.foldl_cons]
        exact ih _ (invNodeStep_keys_nodup _ invs _ m i h)
  exact hgen invs _ (by simp)

theorem invInviteeNode_some_id (minL : String → Option Int) (i : Invitation) (o : INode) :
    (invInviteeNode minL i (some o)).id = o.id := by
  rw [invInviteeNode, lowerLevelI]
  split <;> rfl

theorem invSenderNode_some_id (invs : List Invitation) (minL : String → Option Int)
    (i : Invitation) (senderId : String) (o : INode) :
    (invSenderNode invs minL i senderId (some o)).id = o.id := by
  rw [invSenderNode]
  cases hml : minL senderId with
  | none => simp [hml]
  | some mlv =>
      simp only [hml]
      rw [lowerLevelI]
      split <;> rfl

theorem invNodeStep_coherent (rootId : String) (invs : List Invitation)
    (minL : String → Option Int) (m : List (String × INode)) (i : Invitation)
    (h : ∀ q ∈ m, (Prod.snd q).id = Prod.fst q) :
    ∀ q ∈ invNodeStep rootId invs minL m i, (Prod.snd q).id = Prod.fst q := by
  have hm1 : ∀ q ∈ mapSet m (inviteeKey i.user)
      (invInviteeNode minL i (mapGet m (inviteeKey i.user))), (Prod.snd q).id = Prod.fst q := by
    refine mapSet_forall h ?_
    cases hmo : mapGet m (inviteeKey i.user) with
    | none => rfl
    | some o =>
        show (invInviteeNode minL i (some o)).id = inviteeKey i.user
        rw [invInviteeNode_some_id]
        exact h _ (mapGet_mem hmo)
  rw [invNodeStep]
  split
  · refine mapSet_forall hm1 ?_
    cases hmo : mapGet (mapSet m (inviteeKey i.user)
        (invInviteeNode minL i (mapGet m (inviteeKey i.user)))) (toString i.senderProfileId) with
    | none => rfl
    | some o =>
        show (invSenderNode invs minL i (toString i.senderProfileId) (some o)).id
          = toString i.senderProfileId
        rw [invSenderNode_some_id]
        exact hm1 _ (mapGet_mem hmo)
  · exact hm1

theorem invNodeMap_coherent (userId : Nat) (profileId : Option Nat)
    (userName avatarUrl : String) (invs : List Invitation) :
    ∀ q ∈ invNodeMap userId profileId userName avatarUrl invs,
      (Prod.snd q).id = Prod.fst q := by
  rw [invNodeMap]
  have hgen : ∀ (l : List Invitation) (m : List (String × INode)),
      (∀ q ∈ m, (Prod.snd q).id = Prod.fst q) →
      ∀ q ∈ l.foldl (invNodeStep (toString (invRootPid userId profileId)) invs
        (fun k => mapGet (invUserMinLevels (toString (invRootPid userId profileId)) invs) k)) m,
        (Prod.snd q).id = Prod.fst q := by
    intro l
    induction l with
    | nil => intro m h; simpa using h
    | cons i t ih =>
        intro m h
        rw [List.foldl_cons]
        exact ih _ (invNodeStep_coherent _ invs _ m i h)
  refine hgen invs _ ?_
  intro q hq
  rcases List.mem_singleton.1 hq with rfl
  rfl

/-! ## Set / pair-map lemmas -/

theorem contains_iff_mem {l : List String} {x : String} : l.contains x = true ↔ x ∈ l := by
  simp

theorem setAdd_mem {s : List String} {x y : String} : y ∈ setAdd s x ↔ y ∈ s ∨ y = x := by
  rw [setAdd]
  by_cases h : x ∈ s
  · rw [if_pos h]
    constructor
    · exact Or.inl
    · rintro (hy | rfl)
      · exact hy
      · exact h
  · rw [if_neg h]
    simp

theorem pairsAdd_get (m : List (String × List String)) (s t x : String) :
    mapGet (pairsAdd m s t) x
      = if x = s then some (setAdd ((mapGet m s).getD []) t) else mapGet m x := by
  rw [pairsAdd]
  cases hms : mapGet m s with
  | none =>
      by_cases hx : x = s
      · rw [if_pos hx, hx, mapGet_mapSet_self]
        rfl
      · rw [if_neg hx, mapGet_mapSet_ne _ _ _ _ hx]
  | some st =>
      by_cases hx : x = s
      · rw [if_pos hx, hx, mapGet_mapSet_self]
        rfl
      · rw [if_neg hx, mapGet_mapSet_ne _ _ _ _ hx]

theorem pairsHas_pairsAdd (m : List (String × List String)) (s t a b : String) :
    pairsHas (pairsAdd m s t) a b = true
      ↔ pairsHas m a b = true ∨ (a = s ∧ b = t) := by
  rw [pairsHas, pairsAdd_get]
  by_cases ha : a = s
  · rw [if_pos ha, ha, pairsHas]
    cases hma : mapGet m s with
    | none =>
        simp only [Option.getD_none]
        constructor
        · intro h
          rcases setAdd_mem.1 (contains_iff_mem.1 h) with hy | rfl
          · exact absurd hy (by simp)
          · exact Or.inr ⟨by trivial, rfl⟩
        · rintro (h | ⟨-, rfl⟩)
          · exact absurd h (by simp)
          · exact contains_iff_mem.2 (setAdd_mem.2 (Or.inr rfl))
    | some st =>
        simp only [Option.getD_some]
        constructor
        · intro h
          rcases setAdd_mem.1 (contains_iff_mem.1 h) with hy | rfl
          · exact Or.inl (contains_iff_mem.2 hy)
          · exact Or.inr ⟨by trivial, rfl⟩
        · rintro (h | ⟨-, rfl⟩)
          · exact contains_iff_mem.2 (setAdd_mem.2 (Or.inl (contains_iff_mem.1 h)))
          · exact contains_iff_mem.2 (setAdd_mem.2 (Or.inr rfl))
  · rw [if_neg ha, pairsHas]
    simp [ha]

theorem pairsHas_vouchPairsOf (vs : List Vouch) (a b : String) :
    pairsHas (vouchPairsOf vs) a b = true
      ↔ ∃ v ∈ vs, toString v.authorProfileId = a ∧ toString v.subjectProfileId = b := by
  rw [vouchPairsOf]
  have hgen : ∀ (l : List Vouch) (m : List (String × List String)),
      pairsHas (l.foldl (fun m v =>
        pairsAdd m (toString v.authorProfileId) (toString v.subjectProfileId)) m) a b = true
      ↔ pairsHas m a b = true
        ∨ ∃ v ∈ l, toString v.authorProfileId = a ∧ toString v.subjectProfileId = b := by
    intro l
    induction l with
    | nil => intro m; simp
    | cons v t ih =>
        intro m
        rw [List.foldl_cons, ih, pairsHas_pairsAdd]
        constructor
        · rintro ((h | ⟨h1, h2⟩) | ⟨w, hw, hw1, hw2⟩)
          · exact Or.inl h
          · exact Or.inr ⟨v, List.mem_cons_self _ _, h1.symm, h2.symm⟩
          · exact Or.inr ⟨w, List.mem_cons_of_mem _ hw, hw1, hw2⟩
        · rintro (h | ⟨w, hw, hw1, hw2⟩)
          · exact Or.inl (Or.inl h)
          · rcases List.mem_cons.1 hw with rfl | hw
            · exact Or.inl (Or.inr ⟨hw1.symm, hw2.symm⟩)
            · exact Or.inr ⟨w, hw, hw1, hw2⟩
  rw [hgen]
  simp [pairsHas, mapGet]

/-! ## Vouch filter lemmas -/

theorem vouchLinkOf_sound {rings : RingState} {nm : List (String × VNode)}
    {nodeIds : List String} {pairs : List (String × List String)} {v : Vouch} {l : VLink}
    (h : l ∈ vouchLinkOf rings nm nodeIds pairs v) :
    l.source ∈ nodeIds ∧ l.target ∈ nodeIds ∧
    l.source = toString v.authorProfileId ∧ l.target = toString v.subjectProfileId ∧
    l.isReciprocal
      = pairsHas pairs (toString v.subjectProfileId) (toString v.authorProfileId) := by
  rw [vouchLinkOf] at h
  split at h
  · exact absurd h (by simp)
  · next hcond =>
      split at h
      · next sn tn hsn htn =>
          split at h
          · exact absurd h (by simp)
          · rcases List.mem_singleton.1 h with rfl
            simp only [Bool.not_eq_true] at hcond
            have hc2 := Bool.or_eq_false_iff.1 hcond
            refine ⟨?_, ?_, rfl, rfl, rfl⟩
            · have := hc2.1
              simp at this
              exact this
            · have := hc2.2
              simp at this
              exact this
      · exact absurd h (by simp)

theorem vouchNodeMap_rootShape (rootPid : Nat) (userName avatarUrl : String)
    (vs : List Vouch) :
    ∃ r rest, vouchNodeMap rootPid userName avatarUrl vs
        = (toString rootPid, r) :: rest ∧ r.isRoot = true ∧ r.level = 0 := by
  rw [vouchNodeMap]
  generalize (fun k => mapGet (vouchUserMinLevels rootPid vs) k) = minL
  have hgen : ∀ (l : List Vouch) (m : List (String × VNode)),
      (∃ r rest, m = (toString rootPid, r) :: rest ∧ r.isRoot = true ∧ r.level = 0) →
      ∃ r rest, l.foldl (vouchNodeStep rootPid minL) m
          = (toString rootPid, r) :: rest ∧ r.isRoot = true ∧ r.level = 0 := by
    intro l
    induction l with
    | nil => intro m h; simpa using h
    | cons v t ih =>
        intro m h
        obtain ⟨r, rest, hm, hroot, hlvl⟩ := h
        rw [List.foldl_cons]
        refine ih _ ?_
        obtain ⟨r2, rest2, h2, hr2, hl2⟩ :=
          vouchSubjectStep_rootShape rootPid minL m v hm hroot hlvl
        exact vouchAuthorStep_rootShape rootPid minL _ v h2 hr2 hl2
  exact hgen vs _ ⟨_, [], rfl, rfl, rfl⟩

theorem vouchVisibleNodes_root (rootPid : Nat) (userName avatarUrl : String)
    (vs : List Vouch) (rings : RingState) :
    ∃ n ∈ vouchVisibleNodes rootPid userName avatarUrl vs rings, n.isRoot = true := by
  obtain ⟨r, rest, hm, hroot, hlvl⟩ := vouchNodeMap_rootShape rootPid userName avatarUrl vs
  have hall : vouchAllNodes rootPid userName avatarUrl vs = r :: rest.map Prod.snd := by
    rw [vouchAllNodes, hm]
    rfl
  have hkeep : ringNodeKeep rings r = true := by
    rw [ringNodeKeep, if_pos (by rw [hroot]; simp)]
  have hmemfin : (vouchFinalNodeIds rootPid userName avatarUrl vs rings).contains r.id
      = true := by
    refine contains_iff_mem.2 ?_
    rw [vouchFinalNodeIds]
    refine List.mem_append_left _ ?_
    refine List.mem_map.2 ⟨r, ?_, rfl⟩
    rw [hall]
    refine List.mem_filter.2 ⟨List.mem_cons_self _ _, hkeep⟩
  refine ⟨r, ?_, hroot⟩
  rw [vouchVisibleNodes, hall]
  rw [List.filter_cons, if_pos hmemfin]
  rw [show MAX_TOTAL_NODES = 199 + 1 from rfl, List.take_succ_cons]
  exact List.mem_cons_self _ _

/-! ## Review filter lemmas -/

theorem reviewLinkKeep_sound {rings : RingState} {sents : SentState}
    {nm : List (String × RNode)} {nodeIds : List String} {a : Review}
    (h : reviewLinkKeep rings sents nm nodeIds a = true) :
    toString a.author.profileId ∈ nodeIds ∧ toString a.subject.profileId ∈ nodeIds := by
  rw [reviewLinkKeep] at h
  split at h
  · exact absurd h (by simp)
  · split at h
    · exact absurd h (by simp)
    · next hcond =>
        simp only [Bool.not_eq_true] at hcond
        have hc2 := Bool.or_eq_false_iff.1 hcond
        constructor
        · have := hc2.1
          simp at this
          exact this
        · have := hc2.2
          simp at this
          exact this

theorem reviewLinks_endpoints (rootPid : Nat) (userName avatarUrl : String)
    (rs : List Review) (rings : RingState) (sents : SentState) (l : RLink)
    (h : l ∈ reviewLinks rootPid userName avatarUrl rs rings sents) :
    l.source ∈ reviewVisibleIds rootPid userName avatarUrl rs rings sents ∧
    l.target ∈ reviewVisibleIds rootPid userName avatarUrl rs rings sents := by
  rw [reviewLinks] at h
  obtain ⟨a, ha, rfl⟩ := List.mem_map.1 h
  obtain ⟨-, hkeep⟩ := List.mem_filter.1 ha
  exact reviewLinkKeep_sound hkeep

theorem reviewVisibleLinkState_adj (rootPid : Nat) (userName avatarUrl : String)
    (rs : List Review) (rings : RingState) (sents : SentState) :
    ∀ s t, t ∈ (mapGet (reviewVisibleLinkState rootPid userName avatarUrl rs rings sents).1 s).getD [] →
      reviewTraversable rootPid userName avatarUrl rs rings sents s t := by
  rw [reviewVisibleLinkState]
  have hgen : ∀ (l : List Review), (∀ a ∈ l, a ∈ rs) →
      ∀ (acc : List (String × List String) × List String),
      (∀ s t, t ∈ (mapGet acc.1 s).getD [] →
        reviewTraversable rootPid userName avatarUrl rs rings sents s t) →
      ∀ s t, t ∈ (mapGet (l.foldl
          (reviewVisibleLinkStep rings sents (reviewNodeMap rootPid userName avatarUrl rs)) acc).1 s).getD [] →
        reviewTraversable rootPid userName avatarUrl rs rings sents s t := by
    intro l
    induction l with
    | nil => intro _ acc hacc; exact hacc
    | cons a t0 ih =>
        intro hl acc hacc
        rw [List.foldl_cons]
        refine ih (fun w hw => hl w (List.mem_cons_of_mem _ hw)) _ ?_
        intro s t ht
        rw [reviewVisibleLinkStep] at ht
        split at ht
        · exact hacc s t ht
        · split at ht
          · exact hacc s t ht
          · next h0 hsent =>
              split at ht
              · next sn tn hsn htn =>
                  split at ht
                  · next hring =>
                      rw [show ∀ (x : List (String × List String)) (y : List String),
                          (Prod.mk x y).1 = x from fun _ _ => rfl] at ht
                      rw [pairsAdd_get] at ht
                      by_cases hss : s = toString a.author.profileId
                      · rw [if_pos hss] at ht
                        rw [Option.getD_some] at ht
                        rcases setAdd_mem.1 ht with hold | rfl
                        · exact hacc s t (by
                            cases hma : mapGet acc.1 (toString a.author.profileId) with
                            | none => rw [hma] at hold; exact absurd hold (by simp)
                            | some st => rw [hss, hma]; rw [hma] at hold; exact hold)
                        · rw [not_or] at h0
                          have hb := Bool.and_eq_true_iff.1 hring
                          refine ⟨a, hl a (List.mem_cons_self _ _), h0.1, h0.2, ?_, ?_, hss.symm, rfl⟩
                          · have := hsent
                            simp at this
                            exact this
                          · exact ⟨sn, tn, hsn, htn, hb.1, hb.2⟩
                      · rw [if_neg hss] at ht
                        exact hacc s t ht
                  · exact hacc s t ht
              · exact hacc s t ht
  intro s t ht
  refine hgen rs (fun a ha => ha) ([], []) ?_ s t ht
  intro s2 t2 ht2
  simp [mapGet] at ht2

theorem bfsEnqueue_sound (cand : List String) (P : String → Prop) :
    ∀ (ts : List String) (acc : List String × List String), (∀ t ∈ ts, P t) →
      (∀ y ∈ acc.1, P y) → (∀ y ∈ acc.2, P y) →
      (∀ y ∈ (ts.foldl (bfsEnqueue cand) acc).1, P y) ∧
      (∀ y ∈ (ts.foldl (bfsEnqueue cand) acc).2, P y) := by
  intro ts
  induction ts with
  | nil => intro acc _ h1 h2; exact ⟨h1, h2⟩
  | cons t ts ih =>
      intro acc hts h1 h2
      rw [List.foldl_cons]
      refine ih _ (fun w hw => hts w (List.mem_cons_of_mem _ hw)) ?_ ?_
      · intro y hy
        rw [bfsEnqueue] at hy
        split at hy
        · rcases List.mem_append.1 hy with hy | hy
          · exact h1 y hy
          · rcases List.mem_singleton.1 hy with rfl
            exact hts y (List.mem_cons_self _ _)
        · exact h1 y hy
      · intro y hy
        rw [bfsEnqueue] at hy
        split at hy
        · rcases List.mem_append.1 hy with hy | hy
          · exact h2 y hy
          · rcases List.mem_singleton.1 hy with rfl
            exact hts y (List.mem_cons_self _ _)
        · exact h2 y hy

theorem bfsLoop_sound (adjOf : String → List String) (cand : List String)
    (P : String → Prop) (hclose : ∀ s t, P s → t ∈ adjOf s → P t) :
    ∀ (fuel : Nat) (queue reached : List String),
      (∀ x ∈ queue, P x) → (∀ x ∈ reached, P x) →
      ∀ x ∈ bfsLoop adjOf cand fuel queue reached, P x := by
  intro fuel
  induction fuel with
  | zero =>
      intro queue reached _ hr x hx
      rw [bfsLoop] at hx
      exact hr x hx
  | succ f ih =>
      intro queue reached hq hr x hx
      cases queue with
      | nil =>
          rw [bfsLoop] at hx
          exact hr x hx
      | cons cur rest =>
          rw [bfsLoop] at hx
          have hcur : P cur := hq cur (List.mem_cons_self _ _)
          have hts : ∀ t ∈ adjOf cur, P t := fun t ht => hclose cur t hcur ht
          have henq := bfsEnqueue_sound cand P (adjOf cur) (reached, rest) hts hr
            (fun y hy => hq y (List.mem_cons_of_mem _ hy))
          exact ih _ _ henq.2 henq.1 x hx

theorem reviewReachableNodes_sound (rootPid : Nat) (userName avatarUrl : String)
    (rs : List Review) (rings : RingState) (sents : SentState) :
    ∀ x ∈ reviewReachableNodes rootPid userName avatarUrl rs rings sents,
      Relation.ReflTransGen (reviewTraversable rootPid userName avatarUrl rs rings sents)
        (toString rootPid) x := by
  intro x hx
  rw [reviewReachableNodes] at hx
  split at hx
  · refine bfsLoop_sound _ _ _ ?_ _ _ _ ?_ ?_ x hx
    · intro s t hs ht
      exact hs.tail (reviewVisibleLinkState_adj rootPid userName avatarUrl rs rings sents s t ht)
    · intro y hy
      rcases List.mem_singleton.1 hy with rfl
      exact Relation.ReflTransGen.refl
    · intro y hy
      rcases List.mem_singleton.1 hy with rfl
      exact Relation.ReflTransGen.refl
  · exact absurd hx (by simp)

theorem reviewVisibleNodes_reachable (rootPid : Nat) (userName avatarUrl : String)
    (rs : List Review) (rings : RingState) (sents : SentState) (n : RNode)
    (h : n ∈ reviewVisibleNodes rootPid userName avatarUrl rs rings sents) :
    Relation.ReflTransGen (reviewTraversable rootPid userName avatarUrl rs rings sents)
      (toString rootPid) n.id := by
  rw [reviewVisibleNodes] at h
  have h2 := List.mem_of_mem_take h
  obtain ⟨-, hc⟩ := List.mem_filter.1 h2
  have hmem : n.id ∈ reviewFinalNodeIds rootPid userName avatarUrl rs rings sents :=
    contains_iff_mem.1 hc
  rw [reviewFinalNodeIds] at hmem
  split at hmem
  · have h3 := List.mem_of_mem_filter hmem
    exact reviewReachableNodes_sound rootPid userName avatarUrl rs rings sents n.id h3
  · exact absurd hmem (by simp)

theorem reviewVisibleNodes_allOff (rootPid : Nat) (userName avatarUrl : String)
    (rs : List Review) (rings : RingState) (sents : SentState)
    (h1 : sents.positive = false) (h2 : sents.neutral = false)
    (h3 : sents.negative = false) :
    reviewVisibleNodes rootPid userName avatarUrl rs rings sents = [] ∧
    reviewLinks rootPid userName avatarUrl rs rings sents = [] := by
  have hAny : hasAnyVisibleSentiment sents = false := by
    rw [hasAnyVisibleSentiment, h1, h2, h3]
    rfl
  have hfin : reviewFinalNodeIds rootPid userName avatarUrl rs rings sents = [] := by
    rw [reviewFinalNodeIds]
    simp only [hAny]
    rw [if_neg (by simp)]
  have hnodes : reviewVisibleNodes rootPid userName avatarUrl rs rings sents = [] := by
    rw [reviewVisibleNodes, hfin]
    simp
  refine ⟨hnodes, ?_⟩
  rw [reviewLinks]
  have hids : reviewVisibleIds rootPid userName avatarUrl rs rings sents = [] := by
    rw [reviewVisibleIds, hnodes]
    rfl
  rw [hids]
  have hfilter : rs.filter (reviewLinkKeep rings sents
      (reviewNodeMap rootPid userName avatarUrl rs) []) = [] := by
    rw [List.filter_eq_nil_iff]
    intro a _
    rw [reviewLinkKeep]
    split
    · simp
    · rw [if_pos (by simp)]
      simp
  rw [hfilter]
  rfl

/-! ## Remaining helper lemmas -/

theorem string_append_data (a b : String) : (a ++ b).data = a.data ++ b.data := by
  cases a with
  | mk da =>
      cases b with
      | mk db => rfl

theorem invitationNoData_ne_failed (statusText : String) :
    ("No invitations found for this user" : String)
      ≠ "Failed to fetch invitations: " ++ statusText := by
  intro h
  have hd := congrArg String.data h
  rw [string_append_data] at hd
  have hh := congrArg List.head? hd
  rw [show ("No invitations found for this user" : String).data.head? = some 'N' from rfl] at hh
  rw [show (("Failed to fetch invitations: " : String).data ++ statusText.data).head?
      = some 'F' from rfl] at hh
  exact absurd (Option.some_inj.mp hh) (by decide)

theorem minOfList_reverse (l : List Nat) : minOfList l.reverse = minOfList l := by
  cases h1 : minOfList l with
  | none =>
      have hnil : l = [] := minOfList_eq_none h1
      rw [hnil]
      rfl
  | some a =>
      cases h2 : minOfList l.reverse with
      | none =>
          have hnil : l.reverse = [] := minOfList_eq_none h2
          have hnil2 : l = [] := by simpa using hnil
          rw [hnil2] at h1
          exact absurd h1 (by simp [minOfList])
      | some b =>
          have hab : a ≤ b := minOfList_le h1 b (List.mem_reverse.mp (minOfList_mem h2))
          have hba : b ≤ a := minOfList_le h2 a (List.mem_reverse.mpr (minOfList_mem h1))
          exact congrArg some (Nat.le_antisymm hba hab)

theorem vouchTaggedLevels_reverse (rootPid : Nat) (vs : List Vouch) (k : String) :
    vouchTaggedLevels rootPid vs.reverse k = (vouchTaggedLevels rootPid vs k).reverse := by
  rw [vouchTaggedLevels, vouchTaggedLevels, List.filterMap_reverse]

theorem linkReachable_isolated {links : List VLink} {x : String}
    (h : ∀ l ∈ links, ¬(l.source = x) ∧ ¬(l.target = x)) :
    ∀ y, linkReachable links x y → y = x := by
  intro y hy
  rw [linkReachable] at hy
  rcases Relation.ReflTransGen.cases_head hy with heq | ⟨b, hb, -⟩
  · exact heq.symm
  · obtain ⟨l, hl, hcase⟩ := hb
    rcases hcase with ⟨h1, -⟩ | ⟨-, h2⟩
    · exact absurd h1 (h l hl).1
    · exact absurd h2 (h l hl).2

/-! ## The claims -/

/-- C1 (amended): in the vouch graph, when every accumulated record carries a
positive ring level, the canonical node of every non-root identity has level
equal to the minimum level tagged on any record referencing that identity —
in particular the level is order-independent.  (The invitation graph does
not satisfy the original claim: its transitive sender-level inference can
assign a level below every tagged level, see the counterexample.) -/
theorem spec_C1 (rootPid : Nat) (userName avatarUrl : String) (vs : List Vouch)
    (hlev : ∀ v ∈ vs, 1 ≤ v.level) (k : String) (hne : k ≠ toString rootPid)
    (n : VNode) (hget : mapGet (vouchNodeMap rootPid userName avatarUrl vs) k = some n) :
    minOfList (vouchTaggedLevels rootPid vs k) = some n.level := by
  obtain ⟨-, hks⟩ := vouchNodeMap_inv rootPid userName avatarUrl vs hlev
  obtain ⟨-, hsome⟩ := hks k hne
  obtain ⟨-, -, -, ⟨mm, hminL, -, hlvl⟩, -, -⟩ := hsome n hget
  have hm : mapGet (vouchUserMinLevels rootPid vs) k = some mm := hminL
  rw [vouchUserMinLevels_get] at hm
  rw [hm, hlvl]

/-- C1 witness: identity 2, vouched for by the root at ring 1, ends at
level 1 — the minimum (and only) tagged level. -/
theorem spec_C1_witness :
    minOfList (vouchTaggedLevels 100 [sampleVouchRoot2] "2")
      = some ((Option.getD (mapGet (vouchNodeMap 100 "Root" "" [sampleVouchRoot2]) "2")
          default).level) :=
  spec_C1 100 "Root" "" [sampleVouchRoot2] (by decide) "2" (by decide) _ (by decide)

/-- C1 counterexample: in the invitation graph, with a root→1 record tagged
level 2 and a 1→2 record tagged level 3, identity 1 ends at level 1 even
though the levels tagged on records referencing it are 2 and 3 — the node
level is not the minimum tagged level. -/
theorem spec_C1_counterexample :
    (mapGet (invNodeMap 90 (some 100) "Root" "" [sampleInvJ1, sampleInvJ3]) "1").map
        INode.level = some 1 ∧
    invTaggedLevels [sampleInvJ1, sampleInvJ3] "1" = [2, 3] := by decide

/-- C2 (amended): in the review graph, every rendered edge has both
endpoints in the visible node set, and every visible node is reachable from
the root through traversable (visible) edges.  (The vouch graph does not
satisfy the reachability half, see the counterexample.) -/
theorem spec_C2 (rootPid : Nat) (userName avatarUrl : String) (rs : List Review)
    (rings : RingState) (sents : SentState) (l : RLink) (s : String)
    (hl : l ∈ reviewLinks rootPid userName avatarUrl rs rings sents)
    (hs : s ∈ reviewVisibleIds rootPid userName avatarUrl rs rings sents) :
    l.source ∈ reviewVisibleIds rootPid userName avatarUrl rs rings sents ∧
    l.target ∈ reviewVisibleIds rootPid userName avatarUrl rs rings sents ∧
    Relation.ReflTransGen (reviewTraversable rootPid userName avatarUrl rs rings sents)
      (toString rootPid) s := by
  obtain ⟨hsrc, htgt⟩ := reviewLinks_endpoints rootPid userName avatarUrl rs rings sents l hl
  have hs' : s ∈ (reviewVisibleNodes rootPid userName avatarUrl rs rings sents).map
      RNode.id := hs
  obtain ⟨n, hn, hid⟩ := List.mem_map.mp hs'
  have hr := reviewVisibleNodes_reachable rootPid userName avatarUrl rs rings sents n hn
  rw [hid] at hr
  exact ⟨hsrc, htgt, hr⟩

/-- C2 witness: a single positive ring-1 review from root 100 to identity 2
yields one visible edge with both endpoints visible and identity 2 reachable
from the root. -/
theorem spec_C2_witness :
    (reviewLinks 100 "Root" "" [sampleReviewRoot2] sampleRings12 sentAllOn).headI.source
        ∈ reviewVisibleIds 100 "Root" "" [sampleReviewRoot2] sampleRings12 sentAllOn ∧
    (reviewLinks 100 "Root" "" [sampleReviewRoot2] sampleRings12 sentAllOn).headI.target
        ∈ reviewVisibleIds 100 "Root" "" [sampleReviewRoot2] sampleRings12 sentAllOn ∧
    Relation.ReflTransGen
      (reviewTraversable 100 "Root" "" [sampleReviewRoot2] sampleRings12 sentAllOn)
      (toString (100 : Nat)) "2" :=
  spec_C2 100 "Root" "" [sampleReviewRoot2] sampleRings12 sentAllOn
    (reviewLinks 100 "Root" "" [sampleReviewRoot2] sampleRings12 sentAllOn).headI "2"
    (by decide) (by decide)

/-- C2 counterexample: in the vouch graph, a single ring-2 vouch between
identities 5 and 6 (neither connected to the root) leaves identity 5 in the
visible node set although no path of rendered edges joins it to the root —
the vouch ring filter has no reachability pass. -/
theorem spec_C2_counterexample :
    "5" ∈ vouchVisibleIds 100 "Root" "" [sampleVouch56] sampleRings12 ∧
    ("5" : String) ≠ toString (100 : Nat) ∧
    ¬ linkReachable (vouchLinks 100 "Root" "" [sampleVouch56] sampleRings12)
        (toString (100 : Nat)) "5" := by
  refine ⟨by decide, by decide, fun h => ?_⟩
  have h5 := linkReachable_isolated (by decide) "5" h
  exact absurd h5 (by decide)

/-- C3 (code bug): the invitation normalization assigns level 0 to a
non-root node.  With a root→1 record tagged level 1 and a 1→2 record tagged
level 2, the sender-level inference computes `senderInvitation.level - 1 = 0`
for identity 1 and the update path applies it without any floor, so the
non-root node keyed "1" ends at level 0, contradicting the specified
guarantee. -/
theorem spec_C3 :
    (mapGet (invNodeMap 90 (some 100) "Root" "" [sampleInv1, sampleInv2]) "1").map
        (fun n => (n.isRoot, n.level)) = some (false, 0) := by decide

/-- C4: each graph's canonical node list contains exactly one node keyed by
a referenced identity's stringified profile id: shown for the vouch node map
(for records with positive ring levels) and the invitation node map. -/
theorem spec_C4 (rootPid : Nat) (userName avatarUrl : String) (vs : List Vouch)
    (userId : Nat) (profileId : Option Nat) (invs : List Invitation) (k k2 : String)
    (hlev : ∀ v ∈ vs, 1 ≤ v.level)
    (hocc : 1 ≤ vouchOccCount rootPid vs k) (hne : k ≠ toString rootPid)
    (hocc2 : 1 ≤ invOccCount (toString (invRootPid userId profileId)) invs k2)
    (hne2 : k2 ≠ toString (invRootPid userId profileId)) :
    (vouchAllNodes rootPid userName avatarUrl vs).countP (fun n => n.id == k) = 1 ∧
    (invAllNodes userId profileId userName avatarUrl invs).countP (fun n => n.id == k2)
      = 1 := by
  constructor
  · obtain ⟨-, hks⟩ := vouchNodeMap_inv rootPid userName avatarUrl vs hlev
    obtain ⟨hnone, -⟩ := hks k hne
    have hsome : (mapGet (vouchNodeMap rootPid userName avatarUrl vs) k).isSome := by
      cases hmo : mapGet (vouchNodeMap rootPid userName avatarUrl vs) k with
      | none => have := hnone hmo; omega
      | some _ => rfl
    have hcount := countP_values_of_get VNode.id k
      (vouchNodeMap_coherent rootPid userName avatarUrl vs)
      (vouchNodeMap_keys_nodup rootPid userName avatarUrl vs)
    rw [vouchAllNodes, hcount, if_pos hsome]
  · obtain ⟨-, hks⟩ := invNodeMap_inv userId profileId userName avatarUrl invs
    obtain ⟨hnone, -⟩ := hks k2 hne2
    have hsome : (mapGet (invNodeMap userId profileId userName avatarUrl invs) k2).isSome := by
      cases hmo : mapGet (invNodeMap userId profileId userName avatarUrl invs) k2 with
      | none => have := hnone hmo; omega
      | some _ => rfl
    have hcount := countP_values_of_get INode.id k2
      (invNodeMap_coherent userId profileId userName avatarUrl invs)
      (invNodeMap_keys_nodup userId profileId userName avatarUrl invs)
    rw [invAllNodes, hcount, if_pos hsome]

/-- C4 witness: one vouch and one invitation each yield exactly one node for
the referenced identity. -/
theorem spec_C4_witness :
    (vouchAllNodes 100 "Root" "" [sampleVouchRoot2]).countP (fun n => n.id == "2") = 1 ∧
    (invAllNodes 90 (some 100) "Root" "" [sampleInv1]).countP (fun n => n.id == "1") = 1 :=
  spec_C4 100 "Root" "" [sampleVouchRoot2] 90 (some 100) [sampleInv1] "2" "1"
    (by decide) (by decide) (by decide) (by decide) (by decide)

/-- C5 (amended): the vouch normalization is order-independent — for records
with positive ring levels, every identity's node level is the same whether
the records are processed in forward or in reversed order.  (The invitation
normalization is order-dependent through its `invitations.find` sender
lookup, see the counterexample.) -/
theorem spec_C5 (rootPid : Nat) (userName avatarUrl : String) (vs : List Vouch)
    (hlev : ∀ v ∈ vs, 1 ≤ v.level) (k : String) (hne : k ≠ toString rootPid) :
    (mapGet (vouchNodeMap rootPid userName avatarUrl vs) k).map VNode.level
      = (mapGet (vouchNodeMap rootPid userName avatarUrl vs.reverse) k).map VNode.level := by
  have hlev' : ∀ v ∈ vs.reverse, 1 ≤ v.level := fun v hv => hlev v (List.mem_reverse.mp hv)
  obtain ⟨-, hks1⟩ := vouchNodeMap_inv rootPid userName avatarUrl vs hlev
  obtain ⟨-, hks2⟩ := vouchNodeMap_inv rootPid userName avatarUrl vs.reverse hlev'
  obtain ⟨hnone1, hsome1⟩ := hks1 k hne
  obtain ⟨hnone2, hsome2⟩ := hks2 k hne
  by_cases hocc : vouchOccCount rootPid vs k = 0
  · have hoccr : vouchOccCount rootPid vs.reverse k = 0 := by
      rw [vouchOccCount_reverse]
      exact hocc
    cases hm1 : mapGet (vouchNodeMap rootPid userName avatarUrl vs) k with
    | some n1 =>
        have := (hsome1 n1 hm1).1
        omega
    | none =>
        cases hm2 : mapGet (vouchNodeMap rootPid userName avatarUrl vs.reverse) k with
        | some n2 =>
            have := (hsome2 n2 hm2).1
            omega
        | none => rfl
  · cases hm1 : mapGet (vouchNodeMap rootPid userName avatarUrl vs) k with
    | none => exact absurd (hnone1 hm1) hocc
    | some n1 =>
        cases hm2 : mapGet (vouchNodeMap rootPid userName avatarUrl vs.reverse) k with
        | none =>
            have h0 := hnone2 hm2
            rw [vouchOccCount_reverse] at h0
            exact absurd h0 hocc
        | some n2 =>
            obtain ⟨-, -, -, ⟨mm1, hminL1, -, hl1⟩, -, -⟩ := hsome1 n1 hm1
            obtain ⟨-, -, -, ⟨mm2, hminL2, -, hl2⟩, -, -⟩ := hsome2 n2 hm2
            have hm1' : mapGet (vouchUserMinLevels rootPid vs) k = some mm1 := hminL1
            have hm2' : mapGet (vouchUserMinLevels rootPid vs.reverse) k = some mm2 := hminL2
            rw [vouchUserMinLevels_get] at hm1' hm2'
            rw [vouchTaggedLevels_reverse, minOfList_reverse] at hm2'
            rw [hm1'] at hm2'
            have hmm : mm1 = mm2 := Option.some_inj.mp hm2'
            show some n1.level = some n2.level
            rw [hl1, hl2, hmm]

/-- C5 witness: a two-record vouch list gives identity 2 the same level in
forward and reversed order. -/
theorem spec_C5_witness :
    (mapGet (vouchNodeMap 100 "Root" "" [sampleVouchRoot2, sampleVouch56]) "2").map
        VNode.level
      = (mapGet (vouchNodeMap 100 "Root" ""
          ([sampleVouchRoot2, sampleVouch56].reverse)) "2").map VNode.level :=
  spec_C5 100 "Root" "" [sampleVouchRoot2, sampleVouch56] (by decide) "2" (by decide)

/-- C5 counterexample: the invitation normalization is order-dependent.
With two root→1 records tagged levels 2 and 3 and a 1→2 record, the sender
lookup `invitations.find` picks the first matching record, so identity 1
ends at level 1 in forward order but at level 2 when the same records are
processed reversed. -/
theorem spec_C5_counterexample :
    (mapGet (invNodeMap 90 (some 100) "Root" ""
        [sampleInvJ1, sampleInvJ2, sampleInvJ3]) "1").map INode.level = some 1 ∧
    (mapGet (invNodeMap 90 (some 100) "Root" ""
        ([sampleInvJ1, sampleInvJ2, sampleInvJ3].reverse)) "1").map INode.level
      = some 2 := by decide

/-- C6: a rendered vouch edge from A to B is marked reciprocal exactly when
some record from B to A exists anywhere in the full accumulated record
list. -/
theorem spec_C6 (rootPid : Nat) (userName avatarUrl : String) (vs : List Vouch)
    (rings : RingState) (l : VLink)
    (hl : l ∈ vouchLinks rootPid userName avatarUrl vs rings) :
    l.isReciprocal = true
      ↔ ∃ w ∈ vs, toString w.authorProfileId = l.target
          ∧ toString w.subjectProfileId = l.source := by
  have hl' : l ∈ vs.flatMap (vouchLinkOf rings
      (vouchNodeMap rootPid userName avatarUrl vs)
      (vouchVisibleIds rootPid userName avatarUrl vs rings) (vouchPairsOf vs)) := hl
  obtain ⟨v, hv, hlv⟩ := List.mem_flatMap.mp hl'
  obtain ⟨-, -, hsrc, htgt, hrec⟩ := vouchLinkOf_sound hlv
  rw [hrec, ← htgt, ← hsrc]
  exact pairsHas_vouchPairsOf vs l.target l.source

/-- C6 witness: with the reverse vouch 6→5 present, the rendered 5→6 edge is
reciprocal. -/
theorem spec_C6_witness :
    (vouchLinks 100 "Root" "" [sampleVouch56, sampleVouch65] sampleRings12).headI
        ∈ vouchLinks 100 "Root" "" [sampleVouch56, sampleVouch65] sampleRings12 ∧
    (vouchLinks 100 "Root" "" [sampleVouch56, sampleVouch65] sampleRings12).headI.isReciprocal
      = true :=
  ⟨by decide,
    (spec_C6 100 "Root" "" [sampleVouch56, sampleVouch65] sampleRings12
        (vouchLinks 100 "Root" "" [sampleVouch56, sampleVouch65] sampleRings12).headI
        (by decide)).mpr
      ⟨sampleVouch65, by decide, by decide, by decide⟩⟩

/-- C7 (amended): the invitation-map ring-1 fetch resolves an HTTP 404 to
the distinct no-data message and any other non-2xx status to the fetch-failed
message carrying the status text, and the two messages are different.  (The
vouch and review ring-1 fetches do not distinguish 404, see the
counterexample.) -/
theorem spec_C7 (status : Nat) (statusText : String)
    (hbad : httpOk status = false) (hne : status ≠ 404) :
    invitationRing1Outcome 404 statusText = some "No invitations found for this user" ∧
    invitationRing1Outcome status statusText
        = some ("Failed to fetch invitations: " ++ statusText) ∧
    invitationRing1Outcome 404 statusText ≠ invitationRing1Outcome status statusText := by
  have h404 : invitationRing1Outcome 404 statusText
      = some "No invitations found for this user" := rfl
  have hgen : invitationRing1Outcome status statusText
      = some ("Failed to fetch invitations: " ++ statusText) := by
    rw [invitationRing1Outcome]
    rw [if_pos (by rw [hbad]; rfl)]
    rw [if_neg (by simpa using hne)]
  refine ⟨h404, hgen, ?_⟩
  rw [h404, hgen]
  intro h
  exact invitationNoData_ne_failed statusText (Option.some_inj.mp h)

/-- C7 witness: status 500 yields the fetch-failed message with the status
text, distinct from the 404 no-data message. -/
theorem spec_C7_witness :
    invitationRing1Outcome 404 "Internal Server Error"
        = some "No invitations found for this user" ∧
    invitationRing1Outcome 500 "Internal Server Error"
        = some ("Failed to fetch invitations: " ++ "Internal Server Error") ∧
    invitationRing1Outcome 404 "Internal Server Error"
        ≠ invitationRing1Outcome 500 "Internal Server Error" :=
  spec_C7 500 "Internal Server Error" (by decide) (by decide)

/-- C7 counterexample: the vouch and review ring-1 fetches resolve a 404 to
the same fixed failure message as a 500 — no distinct no-data outcome. -/
theorem spec_C7_counterexample :
    vouchRing1Outcome 404 200 = some "Failed to fetch vouches" ∧
    vouchRing1Outcome 500 200 = some "Failed to fetch vouches" ∧
    reviewRing1Outcome 404 200 = some "Failed to fetch reviews" ∧
    reviewRing1Outcome 500 200 = some "Failed to fetch reviews" := by decide

/-- C8: a failed level-2 per-profile task (thrown, or with failing
responses) contributes no records, and the batch is exactly the
concatenation of the other tasks' contributions — the failure aborts
nothing. -/
theorem spec_C8 (rootPid : Nat) (l1 : List Nat)
    (xs ys : List (Level2Fetch Vouch)) (r : Level2Fetch Vouch)
    (xs2 ys2 : List ReviewLevel2Fetch) (r2 : ReviewLevel2Fetch)
    (h1 : level2Failed r = true) (h2 : reviewLevel2Failed r2 = true) :
    vouchLevel2Batch rootPid l1 (xs ++ r :: ys)
        = vouchLevel2Batch rootPid l1 xs ++ vouchLevel2Batch rootPid l1 ys ∧
    reviewLevel2Batch (xs2 ++ r2 :: ys2)
        = reviewLevel2Batch xs2 ++ reviewLevel2Batch ys2 := by
  have hv : vouchLevel2PerProfile rootPid l1 r = [] := by
    cases r with
    | thrown => rfl
    | response ok values =>
        cases ok with
        | true => simp [level2Failed] at h1
        | false => simp [vouchLevel2PerProfile]
  have hr : reviewLevel2PerProfile r2 = [] := by
    cases r2 with
    | thrown => rfl
    | completed gOk gVals rOk rVals =>
        simp [reviewLevel2Failed] at h2
        simp [reviewLevel2PerProfile, h2.1, h2.2]
  constructor
  · simp [vouchLevel2Batch, List.map_append, List.map_cons, List.flatten_append,
      List.flatten_cons, hv]
  · simp [reviewLevel2Batch, List.map_append, List.map_cons, List.flatten_append,
      List.flatten_cons, hr]

/-- C8 witness: a thrown task between successful tasks leaves the batch
equal to the join of the successful contributions. -/
theorem spec_C8_witness :
    vouchLevel2Batch 100 [] ([Level2Fetch.response true [sampleVouch56]]
        ++ Level2Fetch.thrown :: [])
      = vouchLevel2Batch 100 [] [Level2Fetch.response true [sampleVouch56]]
        ++ vouchLevel2Batch 100 [] [] ∧
    reviewLevel2Batch ([ReviewLevel2Fetch.completed true [sampleReviewRoot2] true []]
        ++ ReviewLevel2Fetch.thrown :: [])
      = reviewLevel2Batch [ReviewLevel2Fetch.completed true [sampleReviewRoot2] true []]
        ++ reviewLevel2Batch [] :=
  spec_C8 100 [] [Level2Fetch.response true [sampleVouch56]] [] Level2Fetch.thrown
    [ReviewLevel2Fetch.completed true [sampleReviewRoot2] true []] []
    ReviewLevel2Fetch.thrown rfl rfl

/-- C9: when every sentiment category is disabled, the review filter's
visible node set is empty — the root is excluded too. -/
theorem spec_C9 (rootPid : Nat) (userName avatarUrl : String) (rs : List Review)
    (rings : RingState) (sents : SentState)
    (h : hasAnyVisibleSentiment sents = false) :
    reviewVisibleNodes rootPid userName avatarUrl rs rings sents = [] := by
  have h' : ((sents.positive || sents.neutral) || sents.negative) = false := h
  obtain ⟨h12, h3⟩ := Bool.or_eq_false_iff.mp h'
  obtain ⟨h1, h2⟩ := Bool.or_eq_false_iff.mp h12
  exact (reviewVisibleNodes_allOff rootPid userName avatarUrl rs rings sents h1 h2 h3).1

/-- C9 witness: with all sentiments off, even a root with a ring-1 review
renders no nodes at all. -/
theorem spec_C9_witness :
    reviewVisibleNodes 100 "Root" "" [sampleReviewRoot2] sampleRings12 sentAllOff = [] :=
  spec_C9 100 "Root" "" [sampleReviewRoot2] sampleRings12 sentAllOff rfl

/-- C10 (amended): in the vouch graph (for records with positive ring
levels), a non-root node's classifier is "both" exactly when the identity
is encountered at least twice — regardless of the sides of those
encounters.  (The original same-side clause fails, see the
counterexample.) -/
theorem spec_C10 (rootPid : Nat) (userName avatarUrl : String) (vs : List Vouch)
    (hlev : ∀ v ∈ vs, 1 ≤ v.level) (k : String) (hne : k ≠ toString rootPid)
    (n : VNode) (hget : mapGet (vouchNodeMap rootPid userName avatarUrl vs) k = some n) :
    n.vouchType = .both ↔ 2 ≤ vouchOccCount rootPid vs k := by
  obtain ⟨-, hks⟩ := vouchNodeMap_inv rootPid userName avatarUrl vs hlev
  obtain ⟨-, hsome⟩ := hks k hne
  obtain ⟨-, -, -, -, hboth, -⟩ := hsome n hget
  exact hboth

/-- C10 witness: identity 5, encountered once as author and once as
subject, is classified both. -/
theorem spec_C10_witness :
    2 ≤ vouchOccCount 100 [sampleVouch56, sampleVouch65] "5" ∧
    ((mapGet (vouchNodeMap 100 "Root" "" [sampleVouch56, sampleVouch65]) "5").getD
        default).vouchType = VouchType.both :=
  ⟨by decide,
    (spec_C10 100 "Root" "" [sampleVouch56, sampleVouch65] (by decide) "5" (by decide)
        _ (by decide)).mpr (by decide)⟩

/-- C10 counterexample: identity 2 is encountered twice purely on the
receiving side (two root→2 vouches, each single occurrence classified
"received"), yet its classifier ends "both" — any second encounter flips
it, same-sided or not. -/
theorem spec_C10_counterexample :
    vouchSingleType 100 sampleVouchRoot2 "2" = .received ∧
    vouchSingleType 100 sampleVouchRoot2b "2" = .received ∧
    vouchOccOf 100 sampleVouchRoot2 "2" = 1 ∧ vouchOccOf 100 sampleVouchRoot2b "2" = 1 ∧
    (mapGet (vouchNodeMap 100 "Root" "" [sampleVouchRoot2, sampleVouchRoot2b]) "2").map
        VNode.vouchType = some .both := by decide

end EthosScanner
